import Mathlib

/-! friendjoin: peer session, channel multiplexer and TCP bridge.

A shallow embedding of `src/PeerUtils.mjs`, `src/RelayTCPClient.mjs` and
`src/RelayTCPHost.mjs`.

The JavaScript objects are records; every callback of the source is a function
from the record before the call to the record after it, together with the list
of externally visible effects the call performed, in order.  Calls into the
transport engine (`node-datachannel`), into `node:net` sockets and into
registered callbacks are effects.  A JavaScript exception that leaves a callback
is also recorded (the mutations made before it are kept, as in the source).

Channel numbers are JavaScript numbers restricted to integers (`Int`); bytes of
a `Buffer` are `Fin 256`.
-/

namespace FriendJoin

/-! ## JavaScript `Map` -/

/-- A JavaScript `Map`, kept as the list of its entries in insertion order. -/
abbrev JsMap (κ ν : Type) := List (κ × ν)

namespace JsMap

variable {κ ν : Type} [DecidableEq κ]

/-- The method `Map.prototype.get`; `none` stands for `undefined`. -/
def get : JsMap κ ν → κ → Option ν
  | [], _ => none
  | (k', v) :: rest, k => if k' = k then some v else get rest k

/-- The method `Map.prototype.has`. -/
def has : JsMap κ ν → κ → Bool
  | [], _ => false
  | (k', _) :: rest, k => if k' = k then true else has rest k

/-- The method `Map.prototype.set`: an existing key keeps its position. -/
def set : JsMap κ ν → κ → ν → JsMap κ ν
  | [], k, v => [(k, v)]
  | (k', v') :: rest, k, v =>
    if k' = k then (k, v) :: rest else (k', v') :: set rest k v

end JsMap

/-! ## Bytes -/

/-- One element of a Node `Buffer`. -/
abbrev Byte := Fin 256

/-- A Node `Buffer`. -/
abbrev Buffer := List Byte

/-- Storing a number into a `Buffer` element (`packet[0] = channelNumber`):
the value is reduced modulo 256. -/
def toUint8 (n : Int) : Byte :=
  ⟨(n % 256).toNat % 256, Nat.mod_lt _ (by decide)⟩

/-- The code points `String.prototype.trim` removes: ECMAScript white space and
line terminators. -/
def isJsWhiteSpace (c : Char) : Bool :=
  let n := c.toNat
  n = 0x09 || n = 0x0A || n = 0x0B || n = 0x0C || n = 0x0D || n = 0x20 || n = 0xA0 ||
    n = 0x1680 || (0x2000 ≤ n && n ≤ 0x200A) || n = 0x2028 || n = 0x2029 || n = 0x202F ||
    n = 0x205F || n = 0x3000 || n = 0xFEFF

/-- The method `String.prototype.trim`. -/
def jsTrim (s : String) : String :=
  ⟨((s.data.dropWhile isJsWhiteSpace).reverse.dropWhile isJsWhiteSpace).reverse⟩

/-- The property `length` of a JavaScript string: its number of UTF-16 code
units. -/
def jsLength (s : String) : Nat :=
  (s.data.map fun c => if c.toNat < 0x10000 then 1 else 2).sum

/-- The byte with value `n` modulo 256. -/
def byte (n : Nat) : Byte :=
  ⟨n % 256, Nat.mod_lt _ (by decide)⟩

/-- The UTF-8 encoding of one code point. -/
def utf8EncodeChar (c : Char) : Buffer :=
  let n := c.toNat
  if n < 0x80 then [byte n]
  else if n < 0x800 then [byte (0xC0 + n / 0x40), byte (0x80 + n % 0x40)]
  else if n < 0x10000 then
    [byte (0xE0 + n / 0x1000), byte (0x80 + n / 0x40 % 0x40), byte (0x80 + n % 0x40)]
  else
    [byte (0xF0 + n / 0x40000), byte (0x80 + n / 0x1000 % 0x40),
      byte (0x80 + n / 0x40 % 0x40), byte (0x80 + n % 0x40)]

/-- The call `Buffer.from(s, "utf8")`. -/
def utf8 (s : String) : Buffer :=
  (s.data.map utf8EncodeChar).flatten

/-- What a callback throws: a string (`throw "..."`), the `TypeError` raised by
a property access on `undefined`, or the `ReferenceError` raised by an
undeclared identifier. -/
inductive Thrown where
  | str (msg : String)
  | typeError (msg : String)
  | referenceError (msg : String)
  deriving DecidableEq, Repr

/-! ## Signaling payload (`SDP`, `Candidate`, `Message`) -/

/-- The class `SDP`. -/
structure SDP where
  sdp : String
  type : String
  deriving DecidableEq, Repr

/-- The class `Candidate`. -/
structure Candidate where
  candidate : String
  mid : String
  deriving DecidableEq, Repr

/-- The class `Message`; `sdp` is `undefined` until the engine reports it. -/
structure Message where
  sdp : Option SDP := none
  candidates : List Candidate := []
  deriving DecidableEq, Repr

/-! ## `openPromise` -/

/-- Settlement state of a promise. -/
inductive Settled where
  | pending
  | resolved
  | rejected (reason : String)
  deriving DecidableEq, Repr

/-- The object returned by `openPromise`: the promise and its `timeout`
property, which holds the armed timer (its delay in milliseconds) or is absent. -/
structure OpenPromise where
  state : Settled
  timeout : Option Nat
  deriving DecidableEq, Repr

/-- The call `openPromise(timeout)`; `if (timeout)` is false for `undefined`
and for `0`. -/
def openPromise (timeout : Option Nat) : OpenPromise :=
  { state := .pending
    timeout := match timeout with
      | some t => if t = 0 then none else some t
      | none => none }

namespace OpenPromise

/-- The native `resolver(value)`: only a pending promise settles. -/
def resolver (p : OpenPromise) : OpenPromise :=
  match p.state with
  | .pending => { p with state := .resolved }
  | _ => p

/-- The native `rejecter(value)`: only a pending promise settles. -/
def rejecter (p : OpenPromise) (reason : String) : OpenPromise :=
  match p.state with
  | .pending => { p with state := .rejected reason }
  | _ => p

/-- The method `prom.resolve`: clears the timer, then resolves. -/
def resolve (p : OpenPromise) : OpenPromise :=
  resolver { p with timeout := none }

/-- The method `prom.reject`: clears the timer, then rejects. -/
def reject (p : OpenPromise) (reason : String) : OpenPromise :=
  rejecter { p with timeout := none } reason

/-- The timer callback `_timeoutFunc` (no `timeoutFunc` is ever passed by
`PeerUtil`).  It runs only while the timer is armed. -/
def timeoutFunc (p : OpenPromise) : OpenPromise :=
  match p.timeout with
  | some _ => reject { p with timeout := none } "Timed out"
  | none => p

end OpenPromise

/-! ## `PeerUtil` -/

/-- The engine's data channel as far as `PeerUtil` uses it: whether `isOpen()`
answers true, and whether `#watchDataChannel` has attached its callbacks. -/
structure DataChannel where
  isOpen : Bool
  watched : Bool
  deriving DecidableEq, Repr

/-- Externally visible effects of `PeerUtil`; `H` names the callbacks handed to
`registerChannel` and `on`. -/
inductive Effect (H : Type) where
  /-- A channel callback runs: `f(buf.subarray(1, buf.length))`. -/
  | callChannel (f : H) (packet : Buffer)
  /-- An event listener runs: `f(data)` in `#callEvent`. -/
  | callListener (f : H) (event : String) (data : Option Message)
  /-- The call `datachannel.sendMessageBinary(packet)`. -/
  | sendMessageBinary (packet : Buffer)
  /-- The call `datachannel.close()`. -/
  | datachannelClose
  /-- The call `peer.close()` on the engine's `PeerConnection`. -/
  | peerClose
  /-- The call `peer.setRemoteDescription`. -/
  | setRemoteDescription (sdp : Option SDP)
  /-- The call `peer.addRemoteCandidate`. -/
  | addRemoteCandidate (c : Candidate)
  /-- An exception leaves the running callback. -/
  | uncaught (t : Thrown)
  deriving DecidableEq, Repr

/-- The private fields of a `PeerUtil` instance, and its pending `setTimeout`
callbacks. -/
structure PeerUtil (H : Type) where
  eventListeners : JsMap String (Option H) := []
  channelNumbers : JsMap Int (Option H) := []
  channelNames : JsMap String Int := []
  closed : Bool := false
  datachannel : Option DataChannel := none
  isInitiator : Bool
  localSDP : Message := {}
  promisesLocalSDP : OpenPromise
  promisesEstablished : OpenPromise
  established : Bool := false
  /-- Pending `setTimeout(..., 3000)` callbacks of the initiator. -/
  establishTimers : Nat := 0
  /-- Pending `setTimeout(..., 5)` callbacks of `onGatheringStateChange`. -/
  gatherTimers : Nat := 0
  deriving DecidableEq, Repr

namespace PeerUtil

variable {H : Type}

/-- The method `isOpen()`. -/
def isOpen (u : PeerUtil H) : Bool :=
  match u.datachannel with
  | some dc => dc.isOpen
  | none => false

/-- The method `isEstablished()`. -/
def isEstablished (u : PeerUtil H) : Bool := u.established

/-- The method `isClosed()`. -/
def isClosed (u : PeerUtil H) : Bool := u.closed

/-- The method `#callEvent(event, data)`. -/
def callEvent (u : PeerUtil H) (event : String) (data : Option Message) :
    List (Effect H) :=
  match JsMap.get u.eventListeners event with
  | some (some f) => [.callListener f event data]
  | _ => []

/-- The method `on(event, callback)` (`on` is a reserved word of the prover). -/
def on_ (u : PeerUtil H) (event : String) (callback : Option H) : PeerUtil H :=
  { u with eventListeners := JsMap.set u.eventListeners event callback }

/-- The method `registerChannel(channelName, channelNumber, callback)`.
`channelNumber = none` is `undefined`. -/
def registerChannel (u : PeerUtil H) (channelName : String)
    (channelNumber : Option Int) (callback : Option H) :
    Except Thrown (PeerUtil H) :=
  if channelName = "" then .error (.str "channelName isn't set")
  else match channelNumber with
    | none => .error (.str "Invalid channel number: undefined")
    | some n =>
      if n < 0 ∨ n > 255 then
        .error (.str ("Invalid channel number: " ++ toString n))
      else if JsMap.has u.channelNames channelName then
        .error (.str ("Channel name " ++ channelName ++ " is already registered"))
      else if JsMap.has u.channelNumbers n then
        .error (.str ("Channel number" ++ toString n ++ " is already registered"))
      else
        .ok { u with
          channelNumbers := JsMap.set u.channelNumbers n callback
          channelNames := JsMap.set u.channelNames channelName n }

/-- The method `send(channel, packet)`.  It changes no field of the session;
the result is the list of effects, or what it throws. -/
def send (u : PeerUtil H) (channel : String) (packet : Buffer) :
    Except Thrown (List (Effect H)) :=
  if u.closed then .ok []
  else match u.datachannel with
    | none =>
      .error (.typeError "Cannot read properties of undefined (reading 'isOpen')")
    | some dc =>
      if !dc.isOpen then .ok []
      else if !JsMap.has u.channelNames channel then
        .error (.str ("Channel not registered: " ++ channel))
      else match JsMap.get u.channelNames channel with
        | none => .error (.str "Invalid channel")
        | some channelNumber =>
          if channelNumber < 0 ∨ channelNumber > 255 then
            .error (.str "Invalid channel")
          else if !JsMap.has u.channelNumbers channelNumber then
            .error (.str ("Channel not registered: " ++ toString channelNumber))
          else
            .ok [.sendMessageBinary (toUint8 channelNumber :: packet)]

/-- The `onMessage` callback installed by `#watchDataChannel`. -/
def onMessage (u : PeerUtil H) (buf : Buffer) : List (Effect H) :=
  match buf with
  | [] => []
  | channelNumber :: rest =>
    match JsMap.get u.channelNumbers (channelNumber.val : Int) with
    | some (some f) => [.callChannel f rest]
    | _ => []

/-- The `onClosed` callback installed by `#watchDataChannel`. -/
def onClosed (u : PeerUtil H) : List (Effect H) :=
  if !u.closed then callEvent u "close" none else []

/-- The method `#watchDataChannel()`. -/
def watchDataChannel (u : PeerUtil H) : PeerUtil H :=
  { u with datachannel := u.datachannel.map fun dc => { dc with watched := true } }

/-- The method `close()`. -/
def close (u : PeerUtil H) : PeerUtil H × List (Effect H) :=
  let u1 := { u with closed := true }
  let u2 := { u1 with promisesLocalSDP := u1.promisesLocalSDP.reject "Utility closed" }
  let u3 := { u2 with promisesEstablished := u2.promisesEstablished.reject "Utility closed" }
  (u3,
    (match u3.datachannel with
      | some _ => [.datachannelClose]
      | none => [])
    ++ [.peerClose] ++ callEvent u3 "close" none)

/-- The method `setRemoteSDP(remoteSDP)`: only engine calls.  Reading
`remoteSDP.sdp.sdp` throws a `TypeError` when the description has no `sdp`. -/
def setRemoteSDP (_u : PeerUtil H) (remoteSDP : Message) : List (Effect H) :=
  match remoteSDP.sdp with
  | none => [.uncaught (.typeError "Cannot read properties of undefined (reading 'sdp')")]
  | some sdp =>
    .setRemoteDescription (some sdp) :: remoteSDP.candidates.map .addRemoteCandidate

/-- The constructor `new PeerUtil(remoteSDP?)`.  When the description has no
`sdp`, `setRemoteSDP` throws and the constructor with it: the effects then hold
that exception, and the caller receives no session. -/
def new (remoteSDP : Option Message) : PeerUtil H × List (Effect H) :=
  let isInitiator := remoteSDP.isNone
  let u : PeerUtil H :=
    { isInitiator := isInitiator
      promisesLocalSDP := openPromise (some 20000)
      promisesEstablished := openPromise (some 180000)
      datachannel := if isInitiator then some { isOpen := false, watched := false } else none }
  (u, match remoteSDP with
      | some m => setRemoteSDP u m
      | none => [])

/-- The callback given to `peer.onLocalDescription`. -/
def onLocalDescription (u : PeerUtil H) (sdp type : String) : PeerUtil H :=
  { u with localSDP := { u.localSDP with sdp := some { sdp := sdp, type := type } } }

/-- The callback given to `peer.onLocalCandidate`. -/
def onLocalCandidate (u : PeerUtil H) (candidate mid : String) : PeerUtil H :=
  { u with localSDP :=
      { u.localSDP with
        candidates := u.localSDP.candidates ++ [{ candidate := candidate, mid := mid }] } }

/-- The initiator's `datachannel.onOpen` callback; the engine reports the
channel open from now on. -/
def onOpen (u : PeerUtil H) : PeerUtil H × List (Effect H) :=
  let u0 := { u with datachannel := u.datachannel.map fun dc => { dc with isOpen := true } }
  let u1 := watchDataChannel u0
  let u2 := { u1 with promisesLocalSDP := u1.promisesLocalSDP.resolve }
  ({ u2 with establishTimers := u2.establishTimers + 1 },
    callEvent u2 "localSDP" (some u2.localSDP))

/-- The callback of the initiator's `setTimeout(..., 3000)`. -/
def establishTimeout (u : PeerUtil H) : PeerUtil H × List (Effect H) :=
  match u.establishTimers with
  | 0 => (u, [])
  | k + 1 =>
    let u1 := { u with establishTimers := k, established := true }
    let u2 := { u1 with promisesEstablished := u1.promisesEstablished.resolve }
    (u2, callEvent u2 "establish" none)

/-- The responder's `peer.onDataChannel` callback. -/
def onDataChannel (u : PeerUtil H) (datachannel : DataChannel) :
    PeerUtil H × List (Effect H) :=
  let u0 := { u with datachannel := some datachannel }
  let u1 := watchDataChannel u0
  let u2 := { u1 with promisesLocalSDP := u1.promisesLocalSDP.resolve }
  let u3 := { u2 with established := true }
  let u4 := { u3 with promisesEstablished := u3.promisesEstablished.resolve }
  (u4, callEvent u4 "establish" none)

/-- The callback given to `peer.onGatheringStateChange`. -/
def onGatheringStateChange (u : PeerUtil H) (state : String) : PeerUtil H :=
  if state ≠ "complete" then u
  else { u with gatherTimers := u.gatherTimers + 1 }

/-- The callback of `setTimeout(..., 5)` armed by `onGatheringStateChange`. -/
def gatherTimeout (u : PeerUtil H) : PeerUtil H :=
  match u.gatherTimers with
  | 0 => u
  | k + 1 =>
    { u with gatherTimers := k, promisesLocalSDP := u.promisesLocalSDP.resolve }

/-- Calls of the public methods and callbacks run by the engine or by timers. -/
inductive Event (H : Type) where
  | registerChannel (channelName : String) (channelNumber : Option Int) (callback : Option H)
  | send (channel : String) (packet : Buffer)
  | on_ (event : String) (callback : Option H)
  | close
  | setRemoteSDP (remoteSDP : Message)
  | localDescription (sdp type : String)
  | localCandidate (candidate mid : String)
  | gatheringStateChange (state : String)
  /-- The 5 ms timer armed by a completed gathering fires. -/
  | gatherTimeout
  /-- The initiator's data channel opens. -/
  | datachannelOpen
  /-- The initiator's 3000 ms timer fires. -/
  | establishTimeout
  /-- The responder receives its data channel. -/
  | dataChannel (datachannel : DataChannel)
  /-- The data channel delivers one message. -/
  | message (buf : Buffer)
  /-- The data channel reports that it closed. -/
  | datachannelClosed
  /-- The 20 s timer of the local-info promise fires. -/
  | localSDPTimeout
  /-- The 180 s timer of the established promise fires. -/
  | establishedTimeout
  deriving DecidableEq, Repr

/-- One event on a session: the session afterwards and the effects performed.
Callbacks run only where the source installs them: `onOpen` on the initiator's
channel, `onDataChannel` on the responder, `onMessage` and `onClosed` once
`#watchDataChannel` has run. -/
def step (u : PeerUtil H) : Event H → PeerUtil H × List (Effect H)
  | .registerChannel name number callback =>
    match registerChannel u name number callback with
    | .ok u' => (u', [])
    | .error t => (u, [.uncaught t])
  | .send channel packet =>
    match send u channel packet with
    | .ok effs => (u, effs)
    | .error t => (u, [.uncaught t])
  | .on_ event callback => (on_ u event callback, [])
  | .close => close u
  | .setRemoteSDP m => (u, setRemoteSDP u m)
  | .localDescription sdp type => (onLocalDescription u sdp type, [])
  | .localCandidate candidate mid => (onLocalCandidate u candidate mid, [])
  | .gatheringStateChange state => (onGatheringStateChange u state, [])
  | .gatherTimeout => (gatherTimeout u, [])
  | .datachannelOpen => if u.isInitiator then onOpen u else (u, [])
  | .establishTimeout => establishTimeout u
  | .dataChannel dc => if u.isInitiator then (u, []) else onDataChannel u dc
  | .message buf =>
    match u.datachannel with
    | some dc => if dc.watched then (u, onMessage u buf) else (u, [])
    | none => (u, [])
  | .datachannelClosed =>
    match u.datachannel with
    | some dc =>
      ({ u with datachannel := some { dc with isOpen := false } },
        if dc.watched then onClosed u else [])
    | none => (u, [])
  | .localSDPTimeout =>
    ({ u with promisesLocalSDP := u.promisesLocalSDP.timeoutFunc }, [])
  | .establishedTimeout =>
    ({ u with promisesEstablished := u.promisesEstablished.timeoutFunc }, [])

/-- Running a list of events; the effects are concatenated in order. -/
def run (u : PeerUtil H) : List (Event H) → PeerUtil H × List (Effect H)
  | [] => (u, [])
  | e :: es =>
    let r := step u e
    let r' := run r.1 es
    (r'.1, r.2 ++ r'.2)

/-- A sequence of `registerChannel` calls, each with its name, number and
callback; a call that throws leaves the session as it was. -/
def registerAll (u : PeerUtil H) : List (String × Option Int × Option H) → PeerUtil H
  | [] => u
  | (channelName, channelNumber, callback) :: calls =>
    registerAll (step u (.registerChannel channelName channelNumber callback)).1 calls

/-- The sessions a program can hold: a constructed one, after any events. -/
inductive Reachable : PeerUtil H → Prop where
  | init (remoteSDP : Option Message) : Reachable (new remoteSDP).1
  | step {u : PeerUtil H} (e : Event H) : Reachable u → Reachable (step u e).1

end PeerUtil

/-! ## Shared by `RelayTCPClient` and `RelayTCPHost` -/

/-- The callbacks both relays hand to `registerChannel`, named after their
channel, and the host's `"close"` listener. -/
inductive Handler where
  | keepAlive
  | ping
  | pong
  | tcpClose
  | tcp
  | tcpOpen
  | peerClose
  deriving DecidableEq, Repr

/-- A `net.Socket` object, by identity. -/
abbrev Socket := Nat

/-- Effects of a relay: those of its `PeerUtil`, and calls on local sockets,
timers and the signaling connection. -/
inductive RelayEffect where
  | peer (e : Effect Handler)
  /-- The call `socket.write(packet)`. -/
  | socketWrite (socket : Socket) (packet : Buffer)
  /-- The call `socket.destroy()`. -/
  | socketDestroy (socket : Socket)
  /-- The call `net.createConnection` towards the local service. -/
  | createConnection (socket : Socket) (port : Nat)
  /-- The call `clearInterval(keepAliveTask)`. -/
  | clearInterval
  /-- The call `connection.send(bytes)` on the signaling connection. -/
  | nexusSend (bytes : Buffer)
  /-- The call `connection.close()` on the signaling connection. -/
  | nexusClose
  /-- The call `tcpProxy.close()`. -/
  | tcpProxyClose
  /-- The call `tcpProxy.listen(port)`. -/
  | tcpProxyListen (port : Nat)
  /-- An exception leaves the running callback. -/
  | uncaught (t : Thrown)
  deriving DecidableEq, Repr

/-- The effects of a `peer.send(...)` call made by a relay, and whether the call
threw (the caller's remaining statements are then skipped). -/
def relaySend (peer : PeerUtil Handler) (channel : String) (packet : Buffer) :
    List RelayEffect × Bool :=
  match peer.send channel packet with
  | .ok effs => (effs.map .peer, false)
  | .error t => ([.uncaught t], true)

/-- The payload of an effect that writes a message whose first byte is `n`. -/
def payloadOn (n : Byte) : RelayEffect → Option Buffer
  | .peer (.sendMessageBinary (b :: payload)) => if b = n then some payload else none
  | _ => none

/-- The payloads written to the data channel on the channel with number `n`,
in order. -/
def payloadsOn (n : Byte) (effs : List RelayEffect) : List Buffer :=
  effs.filterMap (payloadOn n)

/-! ## `RelayTCPClient` -/

/-- The `options` argument of the relay constructors. -/
structure Options where
  host_ID : Option String := none
  tcpPort : Option Nat := none
  nexus : Option String := none
  deriving DecidableEq, Repr

/-- The private fields of a `RelayTCPClient` and the variables its callbacks
close over. -/
structure RelayTCPClient where
  tcpPort : Nat := 35585
  /-- The field `#nexusConnection`: `none` while it is undefined, otherwise
  whether its `readyState` is `OPEN`. -/
  nexusConnection : Option Bool := none
  tcpQueue : List Buffer := []
  peer : PeerUtil Handler
  tcpSocket : Option Socket := none
  /-- Whether `#tcpProxy` has been created. -/
  tcpProxy : Bool := false
  debug : Bool := false
  pingCount : Nat := 0
  host_ID : String
  lastKeepAlive : Int
  serverOpened : Bool := false
  /-- Pending `setTimeout(..., 200)` callbacks armed by the `tcpOpen` handler. -/
  flushTimers : Nat := 0
  /-- Whether the interval `keepAliveTask` is armed. -/
  keepAliveTask : Bool := false
  /-- The variable `request` of the callback that runs once the local
  description is ready. -/
  request : Option Buffer := none
  deriving DecidableEq, Repr

namespace RelayTCPClient

/-- The constructor up to and including the channel registrations; `now` is
`Date.now()`.  A missing `host_ID` and one that trims to the empty string are
both falsy. -/
def new (options : Options) (now : Int) : Except Thrown RelayTCPClient := do
  let host_ID : String := match options.host_ID with
    | some s => if s = "" then "" else jsTrim s
    | none => ""
  if host_ID = "" then throw (.str "Missing host ID")
  if jsLength host_ID ≠ 10 then throw (.str "Invalid host ID")
  let tcpPort := match options.tcpPort with
    | some p => if p = 0 then 35585 else p
    | none => 35585
  let peer : PeerUtil Handler := (PeerUtil.new none).1
  let peer ← peer.registerChannel "keepAlive" (some 0) (some .keepAlive)
  let peer ← peer.registerChannel "ping" (some 1) (some .ping)
  let peer ← peer.registerChannel "pong" (some 2) (some .pong)
  let peer ← peer.registerChannel "tcpClose" (some 3) (some .tcpClose)
  let peer ← peer.registerChannel "tcp" (some 4) (some .tcp)
  let peer ← peer.registerChannel "tcpOpen" (some 5) (some .tcpOpen)
  return { tcpPort := tcpPort, peer := peer, host_ID := host_ID, lastKeepAlive := now }

/-- The loop of the 200 ms timer armed by the `tcpOpen` handler: the queue is
sent from its head; a throwing `send` leaves the loop. -/
def flush (c : RelayTCPClient) : List Buffer → RelayTCPClient × List RelayEffect
  | [] => ({ c with tcpQueue := [] }, [])
  | packet :: rest =>
    let c1 := { c with tcpQueue := rest }
    let r := relaySend c1.peer "tcp" packet
    if r.2 then (c1, r.1)
    else
      let r' := flush c1 rest
      (r'.1, r.1 ++ r'.2)

/-- The callback of the 200 ms timer armed by the `tcpOpen` handler. -/
def flushTimeout (c : RelayTCPClient) : RelayTCPClient × List RelayEffect :=
  match c.flushTimers with
  | 0 => (c, [])
  | k + 1 => flush { c with flushTimers := k } c.tcpQueue

/-- The channel callbacks registered by the constructor; `now` is `Date.now()`. -/
def onChannel (c : RelayTCPClient) (now : Int) (packet : Buffer) :
    Handler → RelayTCPClient × List RelayEffect
  | .keepAlive => ({ c with lastKeepAlive := now }, [])
  | .ping => (c, (relaySend c.peer "pong" []).1)
  | .pong => (if c.pingCount > 0 then { c with pingCount := c.pingCount - 1 } else c, [])
  | .tcpClose =>
    let c1 := { c with serverOpened := false, tcpQueue := [] }
    match c1.tcpSocket with
    | some s => ({ c1 with tcpSocket := none }, [.socketDestroy s])
    | none => (c1, [])
  | .tcp =>
    match c.tcpSocket with
    | some s => (c, [.socketWrite s packet])
    | none => (c, [])
  | .tcpOpen => ({ c with serverOpened := true, flushTimers := c.flushTimers + 1 }, [])
  | .peerClose => (c, [])

/-- Running the callbacks that the effects of a `PeerUtil` step name; every
other effect is passed on. -/
def dispatch (c : RelayTCPClient) (now : Int) :
    List (Effect Handler) → RelayTCPClient × List RelayEffect
  | [] => (c, [])
  | .callChannel f packet :: rest =>
    let r := onChannel c now packet f
    let r' := dispatch r.1 now rest
    (r'.1, r.2 ++ r'.2)
  | e :: rest =>
    let r' := dispatch c now rest
    (r'.1, .peer e :: r'.2)

/-- The callback of `net.createServer`: a local connection was accepted. -/
def onConnection (c : RelayTCPClient) (socket : Socket) :
    RelayTCPClient × List RelayEffect :=
  let c1 := { c with serverOpened := false }
  let destroyed : List RelayEffect := match c1.tcpSocket with
    | some s => [.socketDestroy s]
    | none => []
  let c2 := { c1 with tcpQueue := [] }
  let c3 := { c2 with tcpSocket := some socket }
  (c3, destroyed ++ (relaySend c3.peer "tcpOpen" []).1)

/-- The `"data"` callback of an accepted socket. -/
def onSocketData (c : RelayTCPClient) (packet : Buffer) :
    RelayTCPClient × List RelayEffect :=
  if c.serverOpened then (c, (relaySend c.peer "tcp" packet).1)
  else ({ c with tcpQueue := c.tcpQueue ++ [packet] }, [])

/-- The `"close"` callback of an accepted socket. -/
def onSocketClose (c : RelayTCPClient) : RelayTCPClient × List RelayEffect :=
  if !c.peer.isClosed then
    let r := relaySend c.peer "tcpClose" []
    if r.2 then (c, r.1) else ({ c with tcpSocket := none }, r.1)
  else ({ c with tcpSocket := none }, [])

/-- The statements after `await client.#peer.establish()` up to the creation of
the local server; `now` is `Date.now()`. -/
def onEstablished (c : RelayTCPClient) (now : Int) : RelayTCPClient :=
  { c with lastKeepAlive := now, keepAliveTask := true, tcpProxy := true }

/-- The bytes of the signaling request: the identifier as UTF-8 behind one byte
set to `request.length - 1`, then the local description; `json m` is
`Buffer.from(JSON.stringify(m), "utf8")`. -/
def signalingRequest (json : Message → Buffer) (host_ID : String) (localSDP : Message) :
    Buffer :=
  let request : Buffer := utf8 host_ID
  let request : Buffer := (0 : Byte) :: request
  let request : Buffer := request.set 0 (toUint8 ((request.length : Int) - 1))
  request ++ json localSDP

/-- The callbacks given to `getLocalSDP().then`, run once that promise is
settled.  On fulfilment the request is built and the signaling connection is
created, not yet open, and stored in `#nexusConnection`; on rejection the
second callback calls `error`, which is not declared in the module. -/
def afterLocalSDP (json : Message → Buffer) (c : RelayTCPClient) :
    RelayTCPClient × List RelayEffect :=
  match c.peer.promisesLocalSDP.state with
  | .resolved =>
    ({ c with
        request := some (signalingRequest json c.host_ID c.peer.localSDP)
        nexusConnection := some false }, [])
  | .rejected _ => (c, [.uncaught (.referenceError "error is not defined")])
  | .pending => (c, [])

/-- The `"open"` callback of the signaling connection. -/
def onNexusOpen (c : RelayTCPClient) : RelayTCPClient × List RelayEffect :=
  match c.request with
  | some request => ({ c with nexusConnection := some true }, [.nexusSend request])
  | none => (c, [])

/-- The static method `isPortInUse(port)`; `occupied` tells whether a connection
to the port on localhost succeeds. -/
def isPortInUse (occupied : Nat → Bool) (port : Nat) : Except Thrown Bool :=
  if port = 0 then .error (.str ("Invalid port: " ++ toString port))
  else if port > 65535 then .error (.str ("Invalid port: " ++ toString port))
  else .ok (occupied port)

/-- The loop `for (let i = 0; i < 100; i++)` from index `i` with `count`
iterations left: the port to listen on and the ports probed, in order. -/
def probe (occupied : Nat → Bool) (tcpPort : Nat) : Nat → Nat → Except Thrown (Nat × List Nat)
  | _, 0 => .ok (tcpPort, [])
  | i, count + 1 =>
    match isPortInUse occupied (tcpPort + i) with
    | .error t => .error t
    | .ok true =>
      match probe occupied tcpPort (i + 1) count with
      | .error t => .error t
      | .ok r => .ok (r.1, (tcpPort + i) :: r.2)
    | .ok false => .ok (tcpPort + i, [tcpPort + i])

/-- The port probing and the call `tcpProxy.listen` that follow the creation of
the local server. -/
def listen (occupied : Nat → Bool) (c : RelayTCPClient) : RelayTCPClient × List RelayEffect :=
  match probe occupied c.tcpPort 0 100 with
  | .ok r => ({ c with tcpPort := r.1 }, [.tcpProxyListen r.1])
  | .error t => (c, [.uncaught t])

/-- The callback of `setInterval(..., 3000)`; `now` is `Date.now()`. -/
def keepAliveInterval (c : RelayTCPClient) (now : Int) :
    RelayTCPClient × List RelayEffect :=
  if !c.keepAliveTask then (c, [])
  else if c.peer.isClosed then ({ c with keepAliveTask := false }, [.clearInterval])
  else if c.lastKeepAlive ≤ now - 50000 then
    let r := c.peer.close
    ({ c with peer := r.1, keepAliveTask := false }, r.2.map .peer ++ [.clearInterval])
  else (c, (relaySend c.peer "keepAlive" []).1)

/-- The method `ping()`. -/
def ping (c : RelayTCPClient) : RelayTCPClient × List RelayEffect :=
  if !c.peer.isEstablished || c.peer.isClosed then (c, [])
  else
    let c1 := { c with pingCount := c.pingCount + 1 }
    (c1, (relaySend c1.peer "ping" []).1)

/-- The method `close()`.  Reading `readyState` throws a `TypeError` while
`#nexusConnection` is undefined; once `connection.close()` has been called the
connection is no longer in state `OPEN`. -/
def close (c : RelayTCPClient) : RelayTCPClient × List RelayEffect :=
  match c.nexusConnection with
  | none =>
    (c, [.uncaught (.typeError "Cannot read properties of undefined (reading 'readyState')")])
  | some isOpen =>
    let r := c.peer.close
    ({ c with peer := r.1, nexusConnection := some false },
      (if isOpen then [RelayEffect.nexusClose] else []) ++ r.2.map .peer ++
        (if c.tcpProxy then [RelayEffect.tcpProxyClose] else []))

/-- What happens to an established client. -/
inductive Event where
  /-- The local server accepts a connection. -/
  | connection (socket : Socket)
  /-- An accepted socket delivers a chunk. -/
  | socketData (socket : Socket) (packet : Buffer)
  /-- An accepted socket closed. -/
  | socketClose (socket : Socket)
  /-- The data channel delivers a message at time `now`. -/
  | message (now : Int) (buf : Buffer)
  /-- A 200 ms timer armed by the `tcpOpen` handler fires. -/
  | flushTimeout
  /-- The 3000 ms interval fires at time `now`. -/
  | keepAliveInterval (now : Int)
  /-- The data channel reports that it closed. -/
  | datachannelClosed
  | ping
  | close
  deriving DecidableEq, Repr

/-- One event on the client. -/
def step (c : RelayTCPClient) : Event → RelayTCPClient × List RelayEffect
  | .connection socket => onConnection c socket
  | .socketData _ packet => onSocketData c packet
  | .socketClose _ => onSocketClose c
  | .message now buf =>
    let r := c.peer.step (.message buf)
    dispatch { c with peer := r.1 } now r.2
  | .flushTimeout => flushTimeout c
  | .keepAliveInterval now => keepAliveInterval c now
  | .datachannelClosed =>
    let r := c.peer.step .datachannelClosed
    dispatch { c with peer := r.1 } 0 r.2
  | .ping => ping c
  | .close => close c

/-- Running a list of events; the effects are concatenated in order. -/
def run (c : RelayTCPClient) : List Event → RelayTCPClient × List RelayEffect
  | [] => (c, [])
  | e :: es =>
    let r := step c e
    let r' := run r.1 es
    (r'.1, r.2 ++ r'.2)

/-- The chunks the local sockets deliver during a list of events, in order. -/
def chunks : List Event → List Buffer
  | [] => []
  | .socketData _ packet :: es => packet :: chunks es
  | _ :: es => chunks es

end RelayTCPClient

/-! ## `RelayTCPHost` -/

/-- Where the `async` callback of one join request stands. -/
inductive Stage where
  /-- Suspended at `await peer.getLocalSDP()`. -/
  | awaitLocalSDP
  /-- Suspended at `await peer.establish()`. -/
  | awaitEstablished
  /-- Past both; the keepalive interval has been created. -/
  | running
  /-- Left through one of the `catch` blocks. -/
  | returned
  deriving DecidableEq, Repr

/-- The private fields of a `RelayTCPHost` together with the variables of the
callback that serves one join request (`peer`, `socket`, `lastKeepAlive`,
`keepAliveTask`, `client_id`). -/
structure RelayTCPHost where
  tcpPort : Nat := 25565
  /-- Whether this request's `peer` is in the set `#peers`. -/
  inPeers : Bool := true
  /-- The set `#sockets`. -/
  sockets : List Socket := []
  debug : Bool := false
  pingCount : Nat := 0
  client_id : Buffer
  peer : PeerUtil Handler
  socket : Option Socket := none
  /-- Sockets whose `connect` callback has installed `data`, `error`, `close`. -/
  listening : List Socket := []
  /-- Identity of the next socket `net.createConnection` returns. -/
  nextSocket : Socket := 0
  lastKeepAlive : Option Int := none
  keepAliveTask : Bool := false
  stage : Stage := .awaitLocalSDP
  deriving DecidableEq, Repr

namespace RelayTCPHost

/-- The callback of one join request from `new PeerUtil(client_sdp)` up to the
last `registerChannel`.  `client_sdp` is a parsed JSON object, not an instance of
`Message`, so the constructor takes it as the remote description only if its
`sdp` property is set (`a instanceof Message || a.sdp`). -/
def session (tcpPort : Nat) (client_id : Buffer) (client_sdp : Message) :
    Except Thrown (RelayTCPHost × List RelayEffect) := do
  let r := PeerUtil.new (H := Handler)
    (if client_sdp.sdp.isSome then some client_sdp else none)
  let peer := r.1.on_ "close" (some .peerClose)
  let peer ← peer.registerChannel "keepAlive" (some 0) (some .keepAlive)
  let peer ← peer.registerChannel "ping" (some 1) (some .ping)
  let peer ← peer.registerChannel "pong" (some 2) (some .pong)
  let peer ← peer.registerChannel "tcpClose" (some 3) (some .tcpClose)
  let peer ← peer.registerChannel "tcp" (some 4) (some .tcp)
  let peer ← peer.registerChannel "tcpOpen" (some 5) (some .tcpOpen)
  return ({ tcpPort := tcpPort, client_id := client_id, peer := peer }, r.2.map .peer)

/-- The `"message"` callback of the signaling connection for one join request,
up to the last `registerChannel`: `client_id` is `request.subarray(0,
request[0] + 1)` and the rest is parsed; `parse b` is
`JSON.parse(b.toString("utf8"))`.  On an empty request `request[0] + 1` is
`NaN` and both slices are empty. -/
def onRequest (parse : Buffer → Except Thrown Message) (tcpPort : Nat) (request : Buffer) :
    Except Thrown (RelayTCPHost × List RelayEffect) :=
  match request with
  | [] =>
    match parse [] with
    | .error t => .error t
    | .ok client_sdp => session tcpPort [] client_sdp
  | n :: _ =>
    match parse (request.drop (n.val + 1)) with
    | .error t => .error t
    | .ok client_sdp => session tcpPort (request.take (n.val + 1)) client_sdp

/-- The `"close"` listener given to `peer.on`. -/
def onPeerClose (h : RelayTCPHost) : RelayTCPHost × List RelayEffect :=
  let h1 := { h with inPeers := false }
  match h1.socket with
  | some s => ({ h1 with sockets := h1.sockets.erase s, socket := none }, [.socketDestroy s])
  | none => (h1, [])

/-- The channel callbacks; `now` is `Date.now()`. -/
def onChannel (h : RelayTCPHost) (now : Int) (packet : Buffer) :
    Handler → RelayTCPHost × List RelayEffect
  | .keepAlive => ({ h with lastKeepAlive := some now }, [])
  | .ping => (h, (relaySend h.peer "pong" []).1)
  | .pong => (if h.pingCount > 0 then { h with pingCount := h.pingCount - 1 } else h, [])
  | .tcpClose =>
    match h.socket with
    | some s => ({ h with socket := none, sockets := h.sockets.erase s }, [.socketDestroy s])
    | none => (h, [])
  | .tcp =>
    match h.socket with
    | some s => (h, [.socketWrite s packet])
    | none => (h, [])
  | .tcpOpen =>
    match h.socket with
    | some _ => (h, [])
    | none =>
      let s := h.nextSocket
      ({ h with socket := some s, nextSocket := s + 1,
                sockets := if s ∈ h.sockets then h.sockets else h.sockets ++ [s] },
        [.createConnection s h.tcpPort])
  | .peerClose => onPeerClose h

/-- Running the callbacks that the effects of a `PeerUtil` call name; every
other effect is passed on. -/
def dispatch (h : RelayTCPHost) (now : Int) :
    List (Effect Handler) → RelayTCPHost × List RelayEffect
  | [] => (h, [])
  | .callChannel f packet :: rest =>
    let r := onChannel h now packet f
    let r' := dispatch r.1 now rest
    (r'.1, r.2 ++ r'.2)
  | .callListener f _ _ :: rest =>
    let r := onChannel h now [] f
    let r' := dispatch r.1 now rest
    (r'.1, r.2 ++ r'.2)
  | e :: rest =>
    let r' := dispatch h now rest
    (r'.1, .peer e :: r'.2)

/-- The call `peer.close()` made by the host, its `"close"` listener included. -/
def closePeer (h : RelayTCPHost) : RelayTCPHost × List RelayEffect :=
  let r := h.peer.close
  dispatch { h with peer := r.1 } 0 r.2

/-- The continuation of `await peer.getLocalSDP()`, run once that promise is
settled; `json` is `Buffer.from(JSON.stringify(m), "utf8")`. -/
def afterLocalSDP (json : Message → Buffer) (h : RelayTCPHost) :
    RelayTCPHost × List RelayEffect :=
  match h.stage, h.peer.promisesLocalSDP.state with
  | .awaitLocalSDP, .resolved =>
    ({ h with stage := .awaitEstablished }, [.nexusSend (h.client_id ++ json h.peer.localSDP)])
  | .awaitLocalSDP, .rejected _ =>
    closePeer { h with stage := .returned }
  | _, _ => (h, [])

/-- The continuation of `await peer.establish()`, run once that promise is
settled; `now` is `Date.now()`. -/
def afterEstablished (h : RelayTCPHost) (now : Int) : RelayTCPHost × List RelayEffect :=
  match h.stage, h.peer.promisesEstablished.state with
  | .awaitEstablished, .resolved =>
    ({ h with stage := .running, lastKeepAlive := some now, keepAliveTask := true }, [])
  | .awaitEstablished, .rejected _ =>
    closePeer { h with stage := .returned }
  | _, _ => (h, [])

/-- The comparison `lastKeepAlive <= Date.now() - 50_000`, false while
`lastKeepAlive` is `undefined`. -/
def stale (lastKeepAlive : Option Int) (now : Int) : Bool :=
  match lastKeepAlive with
  | some t => decide (t ≤ now - 50000)
  | none => false

/-- The callback of `setInterval(..., 3000)`; `now` is `Date.now()`. -/
def keepAliveInterval (h : RelayTCPHost) (now : Int) : RelayTCPHost × List RelayEffect :=
  if !h.keepAliveTask then (h, [])
  else if h.peer.isClosed then ({ h with keepAliveTask := false }, [.clearInterval])
  else if stale h.lastKeepAlive now then
    let r := closePeer h
    ({ r.1 with keepAliveTask := false }, r.2 ++ [.clearInterval])
  else (h, (relaySend h.peer "keepAlive" []).1)

/-- The `connect` callback of `net.createConnection`, for socket `s`. -/
def onSocketConnect (h : RelayTCPHost) (_s : Socket) : RelayTCPHost × List RelayEffect :=
  let r := relaySend h.peer "tcpOpen" []
  if r.2 then (h, r.1)
  else match h.socket with
    | some cur => ({ h with listening := cur :: h.listening }, r.1)
    | none =>
      (h, r.1 ++ [.uncaught (.typeError "Cannot read properties of undefined (reading 'on_)")])

/-- The `"data"` callback of a connected socket. -/
def onSocketData (h : RelayTCPHost) (packet : Buffer) : RelayTCPHost × List RelayEffect :=
  (h, (relaySend h.peer "tcp" packet).1)

/-- The `"close"` callback of a connected socket. -/
def onSocketClose (h : RelayTCPHost) : RelayTCPHost × List RelayEffect :=
  let h1 := { h with
    sockets := match h.socket with
      | some s => h.sockets.erase s
      | none => h.sockets
    socket := none }
  if !h1.peer.isClosed then (h1, (relaySend h1.peer "tcpClose" []).1) else (h1, [])

/-- An `"error"` event of socket `s`: logged once the `connect` callback has
installed a listener, an unhandled `error` event before. -/
def onSocketError (h : RelayTCPHost) (s : Socket) : RelayTCPHost × List RelayEffect :=
  if s ∈ h.listening then (h, [])
  else (h, [.uncaught (.str "Unhandled 'error' event")])

/-- What happens to the host while it serves one join request. -/
inductive Event where
  /-- An engine or timer event of the session_s `PeerUtil`, at time `now`. -/
  | peer (now : Int) (e : PeerUtil.Event Handler)
  /-- The promise awaited first is settled and the callback resumes. -/
  | afterLocalSDP
  /-- The promise awaited second is settled and the callback resumes. -/
  | afterEstablished (now : Int)
  /-- The 3000 ms interval fires at time `now`. -/
  | keepAliveInterval (now : Int)
  | socketConnect (s : Socket)
  | socketData (s : Socket) (packet : Buffer)
  | socketClose (s : Socket)
  | socketError (s : Socket)
  deriving DecidableEq, Repr

/-- One event on the host; socket callbacks run only for sockets on which the
`connect` callback has installed them. -/
def step (json : Message → Buffer) (h : RelayTCPHost) :
    Event → RelayTCPHost × List RelayEffect
  | .peer now e =>
    let r := h.peer.step e
    dispatch { h with peer := r.1 } now r.2
  | .afterLocalSDP => afterLocalSDP json h
  | .afterEstablished now => afterEstablished h now
  | .keepAliveInterval now => keepAliveInterval h now
  | .socketConnect s => onSocketConnect h s
  | .socketData s packet => if s ∈ h.listening then onSocketData h packet else (h, [])
  | .socketClose s => if s ∈ h.listening then onSocketClose h else (h, [])
  | .socketError s => onSocketError h s

/-- Running a list of events; the effects are concatenated in order. -/
def run (json : Message → Buffer) (h : RelayTCPHost) :
    List Event → RelayTCPHost × List RelayEffect
  | [] => (h, [])
  | e :: es =>
    let r := step json h e
    let r' := run json r.1 es
    (r'.1, r.2 ++ r'.2)

end RelayTCPHost

/-! ## Liveness traces -/

/-- What the liveness check sees after establishment: a `keepAlive` message
received at time `now`, or the 3000 ms interval firing at time `now`. -/
inductive Beat where
  | heartbeat (now : Int)
  | tick (now : Int)
  deriving DecidableEq, Repr

namespace Beat

/-- The beat as an event of the client: a `keepAlive` message is the single
byte 0. -/
def client : Beat → RelayTCPClient.Event
  | .heartbeat now => .message now [0]
  | .tick now => .keepAliveInterval now

/-- The beat as an event of the host. -/
def host : Beat → RelayTCPHost.Event
  | .heartbeat now => .peer now (.message [0])
  | .tick now => .keepAliveInterval now

/-- Every beat comes at most `d` milliseconds after the heartbeat before it
(`last` is the time of the heartbeat before the first beat). -/
def timely (d : Int) : Int → List Beat → Bool
  | _, [] => true
  | last, .heartbeat now :: bs => decide (now - last ≤ d) && timely d now bs
  | last, .tick now :: bs => decide (now - last ≤ d) && timely d last bs

/-- The time of the last heartbeat of a trace. -/
def lastHeartbeat : Int → List Beat → Int
  | last, [] => last
  | _, .heartbeat now :: bs => lastHeartbeat now bs
  | last, .tick _ :: bs => lastHeartbeat last bs

/-- The number of ticks of a trace. -/
def ticks : List Beat → Nat
  | [] => 0
  | .heartbeat _ :: bs => ticks bs
  | .tick _ :: bs => ticks bs + 1

end Beat

/-! ## Predicates used by the statements -/

namespace PeerUtil

variable {H : Type}

/-- Every name of the registry maps to a number in 0..255 that has an entry in
the number table. -/
def RegistryOK (u : PeerUtil H) : Prop :=
  ∀ name n, JsMap.get u.channelNames name = some n →
    0 ≤ n ∧ n ≤ 255 ∧ JsMap.has u.channelNumbers n = true

/-- No two names of the registry map to the same number. -/
def NamesInjective (u : PeerUtil H) : Prop :=
  ∀ a b n, JsMap.get u.channelNames a = some n → JsMap.get u.channelNames b = some n → a = b

/-- Every entry of the number table holds a callback. -/
def HandlersSet (u : PeerUtil H) : Prop :=
  ∀ n cb, JsMap.get u.channelNumbers n = some cb → cb ≠ none

/-- A promise created with delay `d` is pending exactly while its timer is
armed, and the armed delay is `d`. -/
def Armed (d : Nat) (p : OpenPromise) : Prop :=
  (p.state = .pending → p.timeout = some d) ∧ (p.timeout ≠ none → p.state = .pending)

/-- How a callback may change a promise. -/
inductive Touched (p : OpenPromise) : OpenPromise → Prop where
  | same : Touched p p
  | resolve : Touched p p.resolve
  | reject (reason : String) : Touched p (p.reject reason)
  | timeoutFunc : Touched p p.timeoutFunc

end PeerUtil

/-- The registry both relay constructors build: six channels, numbered 0 to 5. -/
def Registered (u : PeerUtil Handler) : Prop :=
  u.channelNames = [("keepAlive", 0), ("ping", 1), ("pong", 2), ("tcpClose", 3),
      ("tcp", 4), ("tcpOpen", 5)] ∧
    u.channelNumbers = [(0, some .keepAlive), (1, some .ping), (2, some .pong),
      (3, some .tcpClose), (4, some .tcp), (5, some .tcpOpen)]

/-- The number of each of the six channel names. -/
def channelByte (channel : String) : Option Byte :=
  if channel = "keepAlive" then some 0
  else if channel = "ping" then some 1
  else if channel = "pong" then some 2
  else if channel = "tcpClose" then some 3
  else if channel = "tcp" then some 4
  else if channel = "tcpOpen" then some 5
  else none

/-- No effect of the list writes to the data channel. -/
def NoSend (effs : List (Effect Handler)) : Prop :=
  ∀ p, Effect.sendMessageBinary p ∉ effs

/-- No effect of the list writes to the data channel. -/
def Quiet (effs : List RelayEffect) : Prop :=
  ∀ p, RelayEffect.peer (.sendMessageBinary p) ∉ effs

/-- A session on which the keepalive exchange runs: the relays' channel table,
not closed, data channel open and watched. -/
def Live (u : PeerUtil Handler) : Prop :=
  Registered u ∧ u.closed = false ∧ u.datachannel = some ⟨true, true⟩

/-! ## Sample states -/

namespace PeerUtil

/-- A session with a registered `"tcp"` channel whose data channel has opened. -/
def sampleOpen : PeerUtil Nat :=
  (step (step (new none).1 (.registerChannel "tcp" (some 4) (some 7))).1 .datachannelOpen).1

end PeerUtil

namespace RelayTCPHost

/-- The description a joining client sends. -/
def sampleOffer : Message :=
  { sdp := some { sdp := "v=0", type := "offer" } }

/-- The responder session of a host after the constructor's registrations. -/
def samplePeer : PeerUtil Handler :=
  (PeerUtil.run (PeerUtil.new (some sampleOffer)).1
    [.on_ "close" (some .peerClose),
     .registerChannel "keepAlive" (some 0) (some .keepAlive),
     .registerChannel "ping" (some 1) (some .ping),
     .registerChannel "pong" (some 2) (some .pong),
     .registerChannel "tcpClose" (some 3) (some .tcpClose),
     .registerChannel "tcp" (some 4) (some .tcp),
     .registerChannel "tcpOpen" (some 5) (some .tcpOpen)]).1

/-- A host serving one join request, as `session` builds it. -/
def sampleHost : RelayTCPHost :=
  { client_id := [1, 65], peer := samplePeer }

/-- A host whose session is established (at time 1000): the data channel has
arrived and both awaited promises have resolved. -/
def sampleRunning : RelayTCPHost :=
  (run (fun _ => []) sampleHost
    [.peer 0 (.dataChannel ⟨true, false⟩), .afterLocalSDP, .afterEstablished 1000]).1

end RelayTCPHost

namespace RelayTCPClient

/-- The client the constructor returns for host identifier `ABCDEFGHIJ` at
time 0. -/
def sampleNew : RelayTCPClient :=
  { peer := (PeerUtil.run (PeerUtil.new none).1
      [.registerChannel "keepAlive" (some 0) (some .keepAlive),
       .registerChannel "ping" (some 1) (some .ping),
       .registerChannel "pong" (some 2) (some .pong),
       .registerChannel "tcpClose" (some 3) (some .tcpClose),
       .registerChannel "tcp" (some 4) (some .tcp),
       .registerChannel "tcpOpen" (some 5) (some .tcpOpen)]).1
    host_ID := "ABCDEFGHIJ"
    lastKeepAlive := 0 }

/-- The session of that client once its data channel has opened and the
3000 ms establishment timer has fired. -/
def samplePeer : PeerUtil Handler :=
  (PeerUtil.run sampleNew.peer [.datachannelOpen, .establishTimeout]).1

/-- An established client (at time 1000) that has not yet accepted a local
connection; its signaling connection was closed when the host answered. -/
def sampleClient : RelayTCPClient :=
  onEstablished
    { sampleNew with
      peer := samplePeer
      request := some (signalingRequest (fun _ => [123, 125]) "ABCDEFGHIJ" {})
      nexusConnection := some false } 1000

end RelayTCPClient

/-! ## Facts about `JsMap` -/

namespace JsMap

variable {κ ν : Type} [DecidableEq κ]

theorem has_eq_isSome (m : JsMap κ ν) (k : κ) : has m k = (get m k).isSome := by
  induction m with
  | nil => rfl
  | cons p rest ih =>
    obtain ⟨k', v⟩ := p
    simp only [has, get]
    split <;> simp [ih]

theorem get_set_self (m : JsMap κ ν) (k : κ) (v : ν) : get (set m k v) k = some v := by
  induction m with
  | nil => simp [set, get]
  | cons p rest ih =>
    obtain ⟨k', v'⟩ := p
    simp only [set]
    split
    · simp [get]
    · rename_i hne
      simp [get, hne, ih]

theorem get_set_ne (m : JsMap κ ν) (k k' : κ) (v : ν) (h : k ≠ k') :
    get (set m k v) k' = get m k' := by
  induction m with
  | nil => simp [set, get, h]
  | cons p rest ih =>
    obtain ⟨k0, v0⟩ := p
    simp only [set]
    split
    · rename_i h0
      subst h0
      simp [get, h]
    · simp only [get, ih]

theorem has_set_self (m : JsMap κ ν) (k : κ) (v : ν) : has (set m k v) k = true := by
  rw [has_eq_isSome, get_set_self]; rfl

theorem has_set_ne (m : JsMap κ ν) (k k' : κ) (v : ν) (h : k ≠ k') :
    has (set m k v) k' = has m k' := by
  rw [has_eq_isSome, has_eq_isSome, get_set_ne m k k' v h]

theorem has_set_of_has (m : JsMap κ ν) (k k' : κ) (v : ν) (h : has m k' = true) :
    has (set m k v) k' = true := by
  by_cases hk : k = k'
  · subst hk; exact has_set_self m k v
  · rw [has_set_ne m k k' v hk]; exact h

end JsMap

/-! ## The channel registry -/

namespace PeerUtil

variable {H : Type}

/-- What a successful `registerChannel` returns. -/
theorem registerChannel_ok_iff (u u' : PeerUtil H) (name : String) (n : Int)
    (cb : Option H) :
    registerChannel u name (some n) cb = .ok u' ↔
      (name ≠ "" ∧ 0 ≤ n ∧ n ≤ 255 ∧ JsMap.has u.channelNames name = false ∧
        JsMap.has u.channelNumbers n = false ∧
        u' = { u with
          channelNumbers := JsMap.set u.channelNumbers n cb
          channelNames := JsMap.set u.channelNames name n }) := by
  unfold registerChannel
  by_cases h1 : name = ""
  · simp [h1]
  · by_cases h2 : n < 0 ∨ n > 255
    · simp only [h1, h2, if_true, if_false]
      constructor
      · intro h; cases h
      · rintro ⟨_, h3, h4, _⟩; omega
    · by_cases h3 : JsMap.has u.channelNames name = true
      · simp [h1, h2, h3]
      · by_cases h4 : JsMap.has u.channelNumbers n = true
        · simp [h1, h2, h3, h4]
        · have h3' : JsMap.has u.channelNames name = false := by simpa using h3
          have h4' : JsMap.has u.channelNumbers n = false := by simpa using h4
          simp only [h1, h2, h3', h4', if_false, Bool.false_eq_true, Except.ok.injEq]
          constructor
          · intro h
            exact ⟨h1, by omega, by omega, trivial, trivial, h.symm⟩
          · rintro ⟨_, _, _, _, _, h⟩; exact h.symm

/-- A call without a number throws. -/
theorem registerChannel_none (u : PeerUtil H) (name : String) (cb : Option H) :
    ∃ t, registerChannel u name none cb = .error t := by
  unfold registerChannel
  by_cases h1 : name = "" <;> simp [h1]

/-- A call of `registerChannel` either succeeds or throws. -/
theorem registerChannel_cases (u : PeerUtil H) (name : String) (n : Option Int)
    (cb : Option H) :
    (∃ u', registerChannel u name n cb = .ok u') ∨
      (∃ t, registerChannel u name n cb = .error t) := by
  cases h : registerChannel u name n cb with
  | ok u' => exact Or.inl ⟨u', rfl⟩
  | error t => exact Or.inr ⟨t, rfl⟩

theorem registryOK_new (remoteSDP : Option Message) :
    RegistryOK (new (H := H) remoteSDP).1 := by
  intro name n h
  simp [new, JsMap.get] at h

theorem registryOK_registerChannel {u u' : PeerUtil H} {name : String} {n : Option Int}
    {cb : Option H} (hu : RegistryOK u) (h : registerChannel u name n cb = .ok u') :
    RegistryOK u' := by
  cases n with
  | none =>
    obtain ⟨t, ht⟩ := registerChannel_none u name cb
    rw [ht] at h; cases h
  | some n =>
    obtain ⟨_, h0, h255, _, _, rfl⟩ := (registerChannel_ok_iff u u' name n cb).1 h
    intro name' n' hget
    simp only at hget ⊢
    by_cases hn : name = name'
    · subst hn
      rw [JsMap.get_set_self] at hget
      cases hget
      exact ⟨h0, h255, JsMap.has_set_self _ _ _⟩
    · rw [JsMap.get_set_ne _ _ _ _ hn] at hget
      obtain ⟨a, b, c⟩ := hu name' n' hget
      exact ⟨a, b, JsMap.has_set_of_has _ _ _ _ c⟩

/-- Only `registerChannel` touches the two tables of the registry. -/
theorem step_registry (u : PeerUtil H) (e : Event H) :
    (∃ name n cb u', e = .registerChannel name n cb ∧
        registerChannel u name n cb = .ok u' ∧ (step u e).1 = u') ∨
      ((step u e).1.channelNames = u.channelNames ∧
        (step u e).1.channelNumbers = u.channelNumbers) := by
  cases e with
  | registerChannel name n cb =>
    cases h : registerChannel u name n cb with
    | ok u' => exact Or.inl ⟨name, n, cb, u', rfl, h, by simp [step, h]⟩
    | error t => exact Or.inr (by simp [step, h])
  | send channel packet =>
    right; simp only [step]; split <;> exact ⟨rfl, rfl⟩
  | on_ event callback => exact Or.inr ⟨rfl, rfl⟩
  | close => exact Or.inr ⟨rfl, rfl⟩
  | setRemoteSDP m => exact Or.inr ⟨rfl, rfl⟩
  | localDescription a b => exact Or.inr ⟨rfl, rfl⟩
  | localCandidate a b => exact Or.inr ⟨rfl, rfl⟩
  | gatheringStateChange st =>
    right; simp only [step, onGatheringStateChange]; split <;> exact ⟨rfl, rfl⟩
  | gatherTimeout =>
    right; simp only [step, gatherTimeout]; split <;> exact ⟨rfl, rfl⟩
  | datachannelOpen =>
    right; simp only [step]; split <;> exact ⟨rfl, rfl⟩
  | establishTimeout =>
    right; simp only [step, establishTimeout]; split <;> exact ⟨rfl, rfl⟩
  | dataChannel dc =>
    right; simp only [step]; split <;> exact ⟨rfl, rfl⟩
  | message buf =>
    right; simp only [step]; split
    · split <;> exact ⟨rfl, rfl⟩
    · exact ⟨rfl, rfl⟩
  | datachannelClosed =>
    right; simp only [step]; split <;> exact ⟨rfl, rfl⟩
  | localSDPTimeout => exact Or.inr ⟨rfl, rfl⟩
  | establishedTimeout => exact Or.inr ⟨rfl, rfl⟩

theorem registryOK_of_reachable {u : PeerUtil H} (h : Reachable u) : RegistryOK u := by
  induction h with
  | init remoteSDP => exact registryOK_new remoteSDP
  | @step u e _ ih =>
    rcases step_registry u e with ⟨name, n, cb, u', _, hreg, hu'⟩ | ⟨h1, h2⟩
    · rw [hu']; exact registryOK_registerChannel ih hreg
    · intro name n hget
      rw [h1] at hget
      rw [h2]
      exact ih name n hget

theorem toUint8_of_range (n : Int) (h0 : 0 ≤ n) (h255 : n ≤ 255) :
    ((toUint8 n).val : Int) = n := by
  simp only [toUint8]
  omega

theorem sampleOpen_reachable : Reachable sampleOpen :=
  Reachable.step _ (Reachable.step _ (Reachable.init none))

/-! ## C1: dispatch -/

/-- C1. On a session whose data channel is watched, a received message is
dispatched by its first byte: an empty message and a message whose first byte
has no registered handler invoke nothing; otherwise the handler registered for
that number is invoked exactly once with the remaining bytes (possibly none).
A handler registered after the channel was attached is dispatched to in the same
way, and the session itself is unchanged by a message. -/
theorem dispatch_by_first_byte (u : PeerUtil H) (dc : DataChannel)
    (hdc : u.datachannel = some dc) (hw : dc.watched = true) :
    step u (.message []) = (u, []) ∧
    (∀ (b : Byte) (rest : Buffer),
      (∀ f, JsMap.get u.channelNumbers (b.val : Int) ≠ some (some f)) →
        step u (.message (b :: rest)) = (u, [])) ∧
    (∀ (b : Byte) (rest : Buffer) (f : H),
      JsMap.get u.channelNumbers (b.val : Int) = some (some f) →
        step u (.message (b :: rest)) = (u, [.callChannel f rest])) ∧
    (∀ (name : String) (n : Int) (f : H) (u' : PeerUtil H),
      registerChannel u name (some n) (some f) = .ok u' →
        ∀ rest : Buffer, step u' (.message (toUint8 n :: rest)) = (u', [.callChannel f rest])) := by
  refine ⟨?_, ?_, ?_, ?_⟩
  · simp [step, hdc, hw, onMessage]
  · intro b rest hno
    have hnil : onMessage u (b :: rest) = [] := by
      cases hg : JsMap.get u.channelNumbers (b.val : Int) with
      | none => simp [onMessage, hg]
      | some o =>
        cases o with
        | none => simp [onMessage, hg]
        | some f => exact absurd hg (hno f)
    simp only [step, hdc, hw, if_true, hnil]
  · intro b rest f hg
    simp [step, hdc, hw, onMessage, hg]
  · intro name n f u' hreg rest
    obtain ⟨_, h0, h255, _, _, rfl⟩ := (registerChannel_ok_iff u u' name n (some f)).1 hreg
    simp only [step, hdc, hw, onMessage, if_true, toUint8_of_range n h0 h255,
      JsMap.get_set_self]

/-- C1 at a concrete input: on a watched session with `"tcp"` registered as 4,
the messages `[4, 1, 2]` and `[4]` reach that handler with `[1, 2]` and `[]`. -/
theorem dispatch_by_first_byte_witness :
    step sampleOpen (.message [4, 1, 2]) = (sampleOpen, [.callChannel 7 [1, 2]]) ∧
      step sampleOpen (.message [4]) = (sampleOpen, [.callChannel 7 []]) :=
  ⟨(dispatch_by_first_byte sampleOpen ⟨true, true⟩ rfl rfl).2.2.1 4 [1, 2] 7 rfl,
   (dispatch_by_first_byte sampleOpen ⟨true, true⟩ rfl rfl).2.2.1 4 [] 7 rfl⟩

/-! ## C2: encoding of `send` -/

/-- C2. On a reachable session that is not closed and whose data channel is
open, `send` on a name registered with number `n` throws nothing and writes
exactly one message, the byte `n` followed by the payload unchanged; `send` on
a name that is not registered throws "Channel not registered" and writes
nothing.  The session is unchanged in both cases. -/
theorem send_encoding (u : PeerUtil H) (hr : Reachable u) (hclosed : u.closed = false)
    (hopen : u.isOpen = true) :
    (∀ (name : String) (n : Int) (p : Buffer),
      JsMap.get u.channelNames name = some n →
        0 ≤ n ∧ n ≤ 255 ∧ ((toUint8 n).val : Int) = n ∧
        step u (.send name p) = (u, [.sendMessageBinary (toUint8 n :: p)]) ∧
        (toUint8 n :: p).length = p.length + 1) ∧
    (∀ (name : String) (p : Buffer),
      JsMap.has u.channelNames name = false →
        step u (.send name p) =
          (u, [.uncaught (.str ("Channel not registered: " ++ name))])) := by
  have hok := registryOK_of_reachable hr
  cases hdc : u.datachannel with
  | none => simp [isOpen, hdc] at hopen
  | some dc =>
    have hdo : dc.isOpen = true := by simpa [isOpen, hdc] using hopen
    constructor
    · intro name n p hget
      obtain ⟨h0, h255, hnum⟩ := hok name n hget
      have hhas : JsMap.has u.channelNames name = true := by
        rw [JsMap.has_eq_isSome, hget]; rfl
      have hrange : ¬ (n < 0 ∨ n > 255) := by omega
      refine ⟨h0, h255, toUint8_of_range n h0 h255, ?_, by simp⟩
      simp [step, send, hclosed, hdc, hdo, hhas, hget, hrange, hnum]
    · intro name p hhas
      simp [step, send, hclosed, hdc, hdo, hhas]

/-- C2 at a concrete input: `send("tcp", [9, 8])` writes `[4, 9, 8]`, and
`send("udp", ...)` throws. -/
theorem send_encoding_witness :
    step sampleOpen (.send "tcp" [9, 8]) = (sampleOpen, [.sendMessageBinary [4, 9, 8]]) ∧
      step sampleOpen (.send "udp" [9, 8]) =
        (sampleOpen, [.uncaught (.str "Channel not registered: udp")]) :=
  ⟨((send_encoding sampleOpen sampleOpen_reachable rfl rfl).1 "tcp" 4 [9, 8] rfl).2.2.2.1,
   (send_encoding sampleOpen sampleOpen_reachable rfl rfl).2 "udp" [9, 8] rfl⟩

/-! ## C3: `registerChannel` -/

/-- C3, as stated, fails for the empty name: on a fresh session the name `""`
is not registered, the number 5 is not registered and lies in 0..255, yet the
registration throws. -/
theorem registerChannel_empty_name_rejected :
    JsMap.has (new (H := Nat) none).1.channelNames "" = false ∧
      JsMap.has (new (H := Nat) none).1.channelNumbers 5 = false ∧
      (0 : Int) ≤ 5 ∧ (5 : Int) ≤ 255 ∧
      registerChannel (new (H := Nat) none).1 "" (some 5) (some 0) =
        .error (.str "channelName isn't set") := by
  refine ⟨rfl, rfl, by decide, by decide, rfl⟩

/-- C3, amended. With the empty name `registerChannel` throws "channelName
isn't set".  For a non-empty name it succeeds exactly when the name is not yet
registered, the number is not yet registered and the number lies in 0..255, and
it throws exactly when the name is registered, the number is registered or the
number is outside 0..255.  After a successful registration, every further
registration that reuses the name or the number throws. -/
theorem registerChannel_succeeds_iff (u : PeerUtil H) (name : String) (n : Int)
    (cb : Option H) :
    (name = "" →
      registerChannel u name (some n) cb = .error (.str "channelName isn't set")) ∧
    (name ≠ "" →
      ((∃ u', registerChannel u name (some n) cb = .ok u') ↔
        (JsMap.has u.channelNames name = false ∧ JsMap.has u.channelNumbers n = false ∧
          0 ≤ n ∧ n ≤ 255)) ∧
      ((∃ t, registerChannel u name (some n) cb = .error t) ↔
        (JsMap.has u.channelNames name = true ∨ JsMap.has u.channelNumbers n = true ∨
          n < 0 ∨ 255 < n))) ∧
    (∀ u', registerChannel u name (some n) cb = .ok u' →
      ∀ (name' : String) (n' : Int) (cb' : Option H), name' = name ∨ n' = n →
        ∃ t, registerChannel u' name' (some n') cb' = .error t) := by
  refine ⟨?_, ?_, ?_⟩
  · intro hempty
    simp [registerChannel, hempty]
  · intro hname
    have hiff : (∃ u', registerChannel u name (some n) cb = .ok u') ↔
        (JsMap.has u.channelNames name = false ∧ JsMap.has u.channelNumbers n = false ∧
          0 ≤ n ∧ n ≤ 255) := by
      constructor
      · rintro ⟨u', h⟩
        obtain ⟨_, h0, h255, h1, h2, _⟩ := (registerChannel_ok_iff u u' name n cb).1 h
        exact ⟨h1, h2, h0, h255⟩
      · rintro ⟨h1, h2, h0, h255⟩
        exact ⟨_, (registerChannel_ok_iff u _ name n cb).2 ⟨hname, h0, h255, h1, h2, rfl⟩⟩
    refine ⟨hiff, ?_⟩
    constructor
    · rintro ⟨t, ht⟩
      by_contra hcon
      have : ∃ u', registerChannel u name (some n) cb = .ok u' := by
        apply hiff.2
        refine ⟨?_, ?_, ?_, ?_⟩
        · cases hh : JsMap.has u.channelNames name
          · rfl
          · exact absurd (Or.inl hh) hcon
        · cases hh : JsMap.has u.channelNumbers n
          · rfl
          · exact absurd (Or.inr (Or.inl hh)) hcon
        · by_contra hlt
          exact hcon (Or.inr (Or.inr (Or.inl (by omega))))
        · by_contra hgt
          exact hcon (Or.inr (Or.inr (Or.inr (by omega))))
      obtain ⟨u', hu'⟩ := this
      rw [ht] at hu'; cases hu'
    · intro hbad
      rcases registerChannel_cases u name (some n) cb with ⟨u', hu'⟩ | herr
      · obtain ⟨h1, h2, h0, h255⟩ := hiff.1 ⟨u', hu'⟩
        rcases hbad with hb | hb | hb | hb
        · rw [h1] at hb; cases hb
        · rw [h2] at hb; cases hb
        · omega
        · omega
      · exact herr
  · intro u' hreg name' n' cb' hreuse
    obtain ⟨_, _, _, _, _, rfl⟩ := (registerChannel_ok_iff u u' name n cb).1 hreg
    rcases registerChannel_cases
      { u with channelNumbers := JsMap.set u.channelNumbers n cb
               channelNames := JsMap.set u.channelNames name n } name' (some n') cb'
      with ⟨u'', hu''⟩ | herr
    · obtain ⟨_, _, _, h1, h2, _⟩ := (registerChannel_ok_iff _ u'' name' n' cb').1 hu''
      simp only at h1 h2
      rcases hreuse with rfl | rfl
      · rw [JsMap.has_set_self] at h1; cases h1
      · rw [JsMap.has_set_self] at h2; cases h2
    · exact herr

/-- C3 at concrete inputs: a first registration of `"tcp"` as 4 succeeds, and
registering `"tcp"` again, under another number, throws. -/
theorem registerChannel_succeeds_iff_witness :
    (∃ u', registerChannel (new (H := Nat) none).1 "tcp" (some 4) (some 7) = .ok u') ∧
      (∃ t, registerChannel sampleOpen "tcp" (some 9) (some 8) = .error t) :=
  ⟨((registerChannel_succeeds_iff (new (H := Nat) none).1 "tcp" 4 (some 7)).2.1
      (by decide)).1.2 ⟨rfl, rfl, by decide, by decide⟩,
   ((registerChannel_succeeds_iff sampleOpen "tcp" 9 (some 8)).2.1 (by decide)).2.2
      (Or.inl rfl)⟩

/-! ## C6: `send` before the transport is usable -/

/-- Where `send` is a silent no-op: on a closed session, on a session whose data
channel exists and is not open, and so on a freshly constructed initiator. -/
theorem send_noop (u : PeerUtil H) (channel : String) (packet : Buffer) :
    (u.closed = true → send u channel packet = .ok []) ∧
    (∀ dc, u.datachannel = some dc → dc.isOpen = false → send u channel packet = .ok []) ∧
    send (new (H := H) none).1 channel packet = .ok [] := by
  refine ⟨?_, ?_, ?_⟩
  · intro h; simp [send, h]
  · intro dc hdc hopen
    by_cases hc : u.closed = true
    · simp [send, hc]
    · simp [send, hc, hdc, hopen]
  · simp [send, new]

/-- C6. On a responder that has not yet received its data channel, `send`
reads `isOpen` of `undefined`: the session is not closed, and
`send("ping", empty)` throws a `TypeError` instead of returning. -/
theorem send_on_fresh_responder_throws (remoteSDP : Message) :
    (new (H := H) (some remoteSDP)).1.isInitiator = false ∧
      (new (H := H) (some remoteSDP)).1.isClosed = false ∧
      (new (H := H) (some remoteSDP)).1.isOpen = false ∧
      send (new (H := H) (some remoteSDP)).1 "ping" [] =
        .error (.typeError "Cannot read properties of undefined (reading 'isOpen')") := by
  refine ⟨rfl, rfl, rfl, ?_⟩
  simp [send, new]

/-! ## C8: closing twice -/

/-- A second `close()` leaves the session as the first one left it. -/
theorem close_close_state (u : PeerUtil H) : (close (close u).1).1 = (close u).1 := by
  cases u with
  | mk el cn cnm cl dc ini ls pl pe est et gt =>
    cases pl with
    | mk pls plt =>
      cases pe with
      | mk pes pet =>
        cases pls <;> cases pes <;>
          simp [close, OpenPromise.reject, OpenPromise.rejecter]

/-- A second `close()` performs every effect of the first one again. -/
theorem close_close_effects (u : PeerUtil H) :
    (close (close u).1).2 = (close u).2 ∧ Effect.peerClose ∈ (close (close u).1).2 := by
  constructor
  · simp [close, callEvent]
  · simp [close]

/-- C8. An initiator with a `"close"` listener, closed twice: the second
`close()` closes the data channel and the engine again and invokes the listener
again. -/
theorem close_twice_repeats_effects :
    (step (on_ (new (H := Nat) none).1 "close" (some 3)) .close).2 =
        [.datachannelClose, .peerClose, .callListener 3 "close" none] ∧
      (step (step (on_ (new (H := Nat) none).1 "close" (some 3)) .close).1 .close).2 =
        [.datachannelClose, .peerClose, .callListener 3 "close" none] := by
  exact ⟨rfl, rfl⟩

/-! ## C9: events after `close()` -/

/-- What `close()` does guarantee: the session is closed, neither promise is
pending afterwards, and no event opens the session again. -/
theorem close_settles (u : PeerUtil H) :
    (close u).1.isClosed = true ∧
      (close u).1.promisesLocalSDP.state ≠ .pending ∧
      (close u).1.promisesEstablished.state ≠ .pending := by
  cases u with
  | mk el cn cnm cl dc ini ls pl pe est et gt =>
    cases pl with
    | mk pls plt =>
      cases pe with
      | mk pes pet =>
        cases pls <;> cases pes <;>
          simp [close, isClosed, OpenPromise.reject, OpenPromise.rejecter]

/-- No event reopens a closed session: `isClosed()` stays true. -/
theorem closed_stays (u : PeerUtil H) (e : Event H) (hc : u.isClosed = true) :
    (step u e).1.isClosed = true := by
  cases e with
  | registerChannel name n cb =>
    cases h : registerChannel u name n cb with
    | ok u' =>
      cases n with
      | none =>
        obtain ⟨t, ht⟩ := registerChannel_none u name cb
        rw [ht] at h; cases h
      | some n =>
        obtain ⟨_, _, _, _, _, rfl⟩ := (registerChannel_ok_iff u u' name n cb).1 h
        simp only [step, h]
        exact hc
    | error t => simp only [step, h]; exact hc
  | send channel packet => simp only [step]; split <;> exact hc
  | on_ event callback => exact hc
  | close => rfl
  | setRemoteSDP m => exact hc
  | localDescription a b => exact hc
  | localCandidate a b => exact hc
  | gatheringStateChange st =>
    simp only [step, onGatheringStateChange]; split <;> exact hc
  | gatherTimeout => simp only [step, gatherTimeout]; split <;> exact hc
  | datachannelOpen => simp only [step]; split <;> exact hc
  | establishTimeout => simp only [step, establishTimeout]; split <;> exact hc
  | dataChannel dc => simp only [step]; split <;> exact hc
  | message buf =>
    simp only [step]; split
    · split <;> exact hc
    · exact hc
  | datachannelClosed => simp only [step]; split <;> exact hc
  | localSDPTimeout => exact hc
  | establishedTimeout => exact hc

/-- C9. An initiator with an `"establish"` listener whose data channel opens
and which is closed before the 3000 ms timer fires: after `close()` the session
is closed and not established; when the timer fires, `isEstablished()` becomes
true on the closed session and the listener is invoked. -/
theorem establish_after_close :
    (run (on_ (new (H := Nat) none).1 "establish" (some 1))
        [.datachannelOpen, .close]).1.isClosed = true ∧
      (run (on_ (new (H := Nat) none).1 "establish" (some 1))
        [.datachannelOpen, .close]).1.isEstablished = false ∧
      (step (run (on_ (new (H := Nat) none).1 "establish" (some 1))
        [.datachannelOpen, .close]).1 .establishTimeout).1.isClosed = true ∧
      (step (run (on_ (new (H := Nat) none).1 "establish" (some 1))
        [.datachannelOpen, .close]).1 .establishTimeout).1.isEstablished = true ∧
      (step (run (on_ (new (H := Nat) none).1 "establish" (some 1))
        [.datachannelOpen, .close]).1 .establishTimeout).2 =
        [.callListener 1 "establish" none] := by
  refine ⟨rfl, rfl, rfl, rfl, rfl⟩

/-! ## C10: the two timeouts -/

theorem armed_openPromise (d : Nat) (hd : d ≠ 0) : Armed d (openPromise (some d)) := by
  simp [Armed, openPromise, hd]

theorem armed_resolve (d : Nat) (p : OpenPromise) : Armed d p.resolve := by
  cases p with
  | mk st t => cases st <;> simp [Armed, OpenPromise.resolve, OpenPromise.resolver]

theorem armed_reject (d : Nat) (p : OpenPromise) (r : String) : Armed d (p.reject r) := by
  cases p with
  | mk st t => cases st <;> simp [Armed, OpenPromise.reject, OpenPromise.rejecter]

theorem armed_timeoutFunc (d : Nat) (p : OpenPromise) (h : Armed d p) :
    Armed d p.timeoutFunc := by
  cases p with
  | mk st t =>
    cases t with
    | none => simpa [OpenPromise.timeoutFunc] using h
    | some k => exact armed_reject d _ _

theorem armed_touched {d : Nat} {p q : OpenPromise} (h : Armed d p) (t : Touched p q) :
    Armed d q := by
  cases t with
  | same => exact h
  | resolve => exact armed_resolve d p
  | reject r => exact armed_reject d p r
  | timeoutFunc => exact armed_timeoutFunc d p h

/-- Every event leaves each promise alone or settles it through `resolve`,
`reject` or its own timer. -/
theorem step_touched (u : PeerUtil H) (e : Event H) :
    Touched u.promisesLocalSDP (step u e).1.promisesLocalSDP ∧
      Touched u.promisesEstablished (step u e).1.promisesEstablished := by
  cases e with
  | registerChannel name n cb =>
    cases h : registerChannel u name n cb with
    | ok u' =>
      cases n with
      | none =>
        obtain ⟨t, ht⟩ := registerChannel_none u name cb
        rw [ht] at h; cases h
      | some n =>
        obtain ⟨_, _, _, _, _, rfl⟩ := (registerChannel_ok_iff u u' name n cb).1 h
        simp only [step, h]
        exact ⟨.same, .same⟩
    | error t => simp only [step, h]; exact ⟨.same, .same⟩
  | send channel packet =>
    simp only [step]; split <;> exact ⟨.same, .same⟩
  | on_ event callback => exact ⟨.same, .same⟩
  | close => exact ⟨.reject _, .reject _⟩
  | setRemoteSDP m => exact ⟨.same, .same⟩
  | localDescription a b => exact ⟨.same, .same⟩
  | localCandidate a b => exact ⟨.same, .same⟩
  | gatheringStateChange st =>
    simp only [step, onGatheringStateChange]; split <;> exact ⟨.same, .same⟩
  | gatherTimeout =>
    simp only [step, gatherTimeout]; split
    · exact ⟨.same, .same⟩
    · exact ⟨.resolve, .same⟩
  | datachannelOpen =>
    simp only [step]; split
    · exact ⟨.resolve, .same⟩
    · exact ⟨.same, .same⟩
  | establishTimeout =>
    simp only [step, establishTimeout]; split
    · exact ⟨.same, .same⟩
    · exact ⟨.same, .resolve⟩
  | dataChannel dc =>
    simp only [step]; split
    · exact ⟨.same, .same⟩
    · exact ⟨.resolve, .resolve⟩
  | message buf =>
    simp only [step]; split
    · split <;> exact ⟨.same, .same⟩
    · exact ⟨.same, .same⟩
  | datachannelClosed =>
    simp only [step]; split <;> exact ⟨.same, .same⟩
  | localSDPTimeout => exact ⟨.timeoutFunc, .same⟩
  | establishedTimeout => exact ⟨.same, .timeoutFunc⟩

theorem armed_of_reachable {u : PeerUtil H} (h : Reachable u) :
    Armed 20000 u.promisesLocalSDP ∧ Armed 180000 u.promisesEstablished := by
  induction h with
  | init remoteSDP =>
    exact ⟨armed_openPromise 20000 (by decide), armed_openPromise 180000 (by decide)⟩
  | @step u e _ ih =>
    exact ⟨armed_touched ih.1 (step_touched u e).1, armed_touched ih.2 (step_touched u e).2⟩

theorem reachable_run {u : PeerUtil H} (h : Reachable u) (es : List (Event H)) :
    Reachable (run u es).1 := by
  induction es generalizing u with
  | nil => exact h
  | cons e es ih => exact ih (Reachable.step e h)

theorem timeoutFunc_pending (p : OpenPromise) (d : Nat) (hs : p.state = .pending)
    (ht : p.timeout = some d) : p.timeoutFunc = { state := .rejected "Timed out", timeout := none } := by
  cases p with
  | mk st t =>
    simp only at hs ht
    subst hs ht
    rfl

end PeerUtil

namespace RelayTCPHost

theorem host_onChannel_peer (h : RelayTCPHost) (now : Int) (packet : Buffer) (f : Handler) :
    (onChannel h now packet f).1.peer = h.peer := by
  cases f <;> simp only [onChannel, onPeerClose] <;> (try split) <;> (try split) <;> rfl

theorem host_dispatch_peer (h : RelayTCPHost) (now : Int) (effs : List (Effect Handler)) :
    (dispatch h now effs).1.peer = h.peer := by
  induction effs generalizing h with
  | nil => rfl
  | cons e rest ih =>
    cases e <;> simp only [dispatch, ih, host_onChannel_peer]

theorem closePeer_closed (h : RelayTCPHost) : (closePeer h).1.peer.isClosed = true := by
  simp only [closePeer, host_dispatch_peer]
  exact (PeerUtil.close_settles h.peer).1

/-- The host resumes after a rejected `await`: the `catch` block closes the
session. -/
theorem afterEstablished_rejected (h : RelayTCPHost) (now : Int) (r : String)
    (hst : h.stage = .awaitEstablished)
    (hrej : h.peer.promisesEstablished.state = .rejected r) :
    (afterEstablished h now).1.peer.isClosed = true := by
  simp only [afterEstablished, hst, hrej]
  exact closePeer_closed _

theorem afterLocalSDP_rejected (json : Message → Buffer) (h : RelayTCPHost) (r : String)
    (hst : h.stage = .awaitLocalSDP)
    (hrej : h.peer.promisesLocalSDP.state = .rejected r) :
    (afterLocalSDP json h).1.peer.isClosed = true := by
  simp only [afterLocalSDP, hst, hrej]
  exact closePeer_closed _

theorem session_eq_sampleHost :
    session 25565 [1, 65] sampleOffer =
      .ok (sampleHost, [.peer (.setRemoteDescription sampleOffer.sdp)]) := by
  rfl

end RelayTCPHost

/-! ## The relays' channel table -/

/-- What `send` does on a session with the relays' channel table. -/
theorem send_registered (u : PeerUtil Handler) (hreg : Registered u) (channel : String)
    (packet : Buffer) (b : Byte) (hb : channelByte channel = some b) :
    u.send channel packet =
      if u.closed then .ok []
      else match u.datachannel with
        | none =>
          .error (.typeError "Cannot read properties of undefined (reading 'isOpen')")
        | some dc =>
          if dc.isOpen then .ok [.sendMessageBinary (b :: packet)] else .ok [] := by
  obtain ⟨hn, hm⟩ := hreg
  unfold channelByte at hb
  unfold PeerUtil.send
  by_cases hc : u.closed = true
  · simp [hc]
  · simp only [hc, if_false]
    cases hdc : u.datachannel with
    | none => rfl
    | some dc =>
      by_cases ho : dc.isOpen = true
      · simp only [ho, Bool.not_true, Bool.false_eq_true, if_false, if_true, hn, hm]
        split_ifs at hb with h1 h2 h3 h4 h5 h6 <;> cases hb <;> subst_vars <;>
          simp [JsMap.has, JsMap.get, toUint8]
      · simp [ho]

theorem relaySend_registered (u : PeerUtil Handler) (hreg : Registered u) (channel : String)
    (packet : Buffer) (b : Byte) (hb : channelByte channel = some b) :
    relaySend u channel packet =
      if u.closed then ([], false)
      else match u.datachannel with
        | none =>
          ([.uncaught (.typeError "Cannot read properties of undefined (reading 'isOpen')")],
            true)
        | some dc =>
          if dc.isOpen then ([.peer (.sendMessageBinary (b :: packet))], false)
          else ([], false) := by
  unfold relaySend
  rw [send_registered u hreg channel packet b hb]
  by_cases hc : u.closed = true
  · simp [hc]
  · simp only [hc, if_false]
    cases hdc : u.datachannel with
    | none => rfl
    | some dc => by_cases ho : dc.isOpen = true <;> simp [ho]

/-- A relay's `send` on a registered channel writes at most the one payload it
was given, on that channel. -/
theorem mem_payloadsOn_relaySend (u : PeerUtil Handler) (hreg : Registered u)
    (channel : String) (packet : Buffer) (b n : Byte) (hb : channelByte channel = some b)
    (q : Buffer) (hq : q ∈ payloadsOn n (relaySend u channel packet).1) :
    b = n ∧ q = packet := by
  rw [relaySend_registered u hreg channel packet b hb] at hq
  by_cases hc : u.closed = true
  · simp [hc, payloadsOn] at hq
  · simp only [hc, if_false] at hq
    cases hdc : u.datachannel with
    | none => simp [hdc, payloadsOn, payloadOn] at hq
    | some dc =>
      by_cases ho : dc.isOpen = true
      · by_cases hbn : b = n
        · simp [hdc, ho, payloadsOn, payloadOn, hbn] at hq
          exact ⟨hbn, hq⟩
        · simp [hdc, ho, payloadsOn, payloadOn, hbn] at hq
      · simp [hdc, ho, payloadsOn] at hq

theorem payloadsOn_append (n : Byte) (a b : List RelayEffect) :
    payloadsOn n (a ++ b) = payloadsOn n a ++ payloadsOn n b := by
  simp [payloadsOn]

/-! ## The client bridge -/

theorem noSend_step_message (u : PeerUtil Handler) (buf : Buffer) :
    NoSend (u.step (.message buf)).2 := by
  intro p hp
  simp only [PeerUtil.step] at hp
  split at hp
  · split at hp
    · simp only [PeerUtil.onMessage] at hp
      split at hp
      · simp at hp
      · split at hp <;> simp at hp
    · simp at hp
  · simp at hp

theorem noSend_callEvent (u : PeerUtil Handler) (event : String) (data : Option Message) :
    NoSend (u.callEvent event data) := by
  intro p hp
  simp only [PeerUtil.callEvent] at hp
  split at hp <;> simp at hp

theorem noSend_step_datachannelClosed (u : PeerUtil Handler) :
    NoSend (u.step .datachannelClosed).2 := by
  intro p hp
  simp only [PeerUtil.step] at hp
  split at hp
  · simp only [PeerUtil.onClosed] at hp
    split at hp
    · split at hp
      · exact noSend_callEvent _ _ _ p hp
      · simp at hp
    · simp at hp
  · simp at hp

theorem noSend_close (u : PeerUtil Handler) : NoSend u.close.2 := by
  intro p hp
  simp only [PeerUtil.close, List.mem_append] at hp
  rcases hp with (hp | hp) | hp
  · split at hp <;> simp at hp
  · simp at hp
  · exact noSend_callEvent _ _ _ p hp

theorem payloadsOn_map_peer (n : Byte) (effs : List (Effect Handler)) (h : NoSend effs) :
    payloadsOn n (effs.map .peer) = [] := by
  induction effs with
  | nil => rfl
  | cons e rest ih =>
    have hrest : NoSend rest := fun p hp => h p (List.mem_cons_of_mem _ hp)
    have he : ∀ p, e ≠ .sendMessageBinary p := fun p hp => h p (hp ▸ List.mem_cons_self _ _)
    simp only [List.map_cons, payloadsOn, List.filterMap_cons]
    have : payloadOn n (.peer e) = none := by
      cases e with
      | sendMessageBinary p => exact absurd rfl (he p)
      | _ => rfl
    rw [this]
    exact ih hrest

namespace RelayTCPClient

theorem client_onChannel_peer (c : RelayTCPClient) (now : Int) (packet : Buffer) (f : Handler) :
    (onChannel c now packet f).1.peer = c.peer := by
  cases f <;> simp only [onChannel] <;> (try split) <;> rfl

theorem onChannel_queue (c : RelayTCPClient) (now : Int) (packet : Buffer) (f : Handler)
    (q : Buffer) (hq : q ∈ (onChannel c now packet f).1.tcpQueue) : q ∈ c.tcpQueue := by
  cases f <;> simp only [onChannel] at hq <;> (try split at hq) <;>
    first
      | exact hq
      | (simp at hq)

theorem onChannel_payloads (c : RelayTCPClient) (hreg : Registered c.peer) (now : Int)
    (packet : Buffer) (f : Handler) : payloadsOn 4 (onChannel c now packet f).2 = [] := by
  cases f with
  | ping =>
    apply List.eq_nil_iff_forall_not_mem.2
    intro q hq
    have := mem_payloadsOn_relaySend c.peer hreg "pong" [] 2 4 rfl q hq
    exact absurd this.1 (by decide)
  | tcpClose => simp only [onChannel]; split <;> rfl
  | tcp => simp only [onChannel]; split <;> rfl
  | _ => rfl

theorem client_dispatch_peer (c : RelayTCPClient) (now : Int) (effs : List (Effect Handler)) :
    (dispatch c now effs).1.peer = c.peer := by
  induction effs generalizing c with
  | nil => rfl
  | cons e rest ih =>
    cases e <;> simp only [dispatch, ih, client_onChannel_peer]

theorem dispatch_queue (c : RelayTCPClient) (now : Int) (effs : List (Effect Handler))
    (q : Buffer) (hq : q ∈ (dispatch c now effs).1.tcpQueue) : q ∈ c.tcpQueue := by
  induction effs generalizing c with
  | nil => exact hq
  | cons e rest ih =>
    cases e with
    | callChannel f packet =>
      simp only [dispatch] at hq
      exact onChannel_queue c now packet f q (ih _ hq)
    | _ =>
      simp only [dispatch] at hq
      exact ih _ hq

theorem dispatch_payloads (c : RelayTCPClient) (hreg : Registered c.peer) (now : Int)
    (effs : List (Effect Handler)) (h : NoSend effs) :
    payloadsOn 4 (dispatch c now effs).2 = [] := by
  induction effs generalizing c with
  | nil => rfl
  | cons e rest ih =>
    have hrest : NoSend rest := fun p hp => h p (List.mem_cons_of_mem _ hp)
    have he : ∀ p, e ≠ .sendMessageBinary p := fun p hp => h p (hp ▸ List.mem_cons_self _ _)
    cases e with
    | callChannel f packet =>
      simp only [dispatch, payloadsOn_append, onChannel_payloads c hreg]
      exact ih _ (by rw [client_onChannel_peer]; exact hreg) hrest
    | sendMessageBinary p => exact absurd rfl (he p)
    | _ =>
      simp only [dispatch, payloadsOn, List.filterMap_cons, payloadOn]
      exact ih c hreg hrest

theorem flush_sound (q : List Buffer) (c : RelayTCPClient) (hreg : Registered c.peer) :
    (flush c q).1.peer = c.peer ∧
      (∀ x ∈ payloadsOn 4 (flush c q).2, x ∈ q) ∧
      (∀ x ∈ (flush c q).1.tcpQueue, x ∈ q) := by
  induction q generalizing c with
  | nil => simp [flush, payloadsOn]
  | cons packet rest ih =>
    simp only [flush]
    have hsend : ∀ x ∈ payloadsOn 4 (relaySend c.peer "tcp" packet).1, x = packet :=
      fun x hx => (mem_payloadsOn_relaySend c.peer hreg "tcp" packet 4 4 rfl x hx).2
    split
    · refine ⟨rfl, ?_, ?_⟩
      · intro x hx
        rw [hsend x hx]; exact List.mem_cons_self _ _
      · intro x hx
        exact List.mem_cons_of_mem _ hx
    · obtain ⟨h1, h2, h3⟩ := ih { c with tcpQueue := rest } hreg
      refine ⟨h1, ?_, ?_⟩
      · intro x hx
        rw [payloadsOn_append, List.mem_append] at hx
        rcases hx with hx | hx
        · rw [hsend x hx]; exact List.mem_cons_self _ _
        · exact List.mem_cons_of_mem _ (h2 x hx)
      · intro x hx
        exact List.mem_cons_of_mem _ (h3 x hx)

theorem chunks_cons (e : Event) (es : List Event) : chunks (e :: es) = chunks [e] ++ chunks es := by
  cases e <;> rfl

theorem registered_step_peer (u : PeerUtil Handler) (hreg : Registered u) (e : PeerUtil.Event Handler)
    (hne : ∀ name n cb, e ≠ .registerChannel name n cb) : Registered (u.step e).1 := by
  rcases PeerUtil.step_registry u e with ⟨name, n, cb, _, he, _, _⟩ | ⟨h1, h2⟩
  · exact absurd he (hne name n cb)
  · exact ⟨h1 ▸ hreg.1, h2 ▸ hreg.2⟩

/-- One event on a client with the relays' channel table: the table stays, and
every payload written on channel 4 (`tcp`) and every chunk left in the queue
was in the queue before or is the chunk this event delivers. -/
theorem step_sound (c : RelayTCPClient) (hreg : Registered c.peer) (e : Event) :
    Registered (step c e).1.peer ∧
      (∀ x ∈ payloadsOn 4 (step c e).2, x ∈ c.tcpQueue ∨ x ∈ chunks [e]) ∧
      (∀ x ∈ (step c e).1.tcpQueue, x ∈ c.tcpQueue ∨ x ∈ chunks [e]) := by
  cases e with
  | connection socket =>
    refine ⟨hreg, ?_, ?_⟩
    · intro x hx
      simp only [step, onConnection, payloadsOn_append, List.mem_append] at hx
      rcases hx with hx | hx
      · split at hx <;> simp [payloadsOn, payloadOn] at hx
      · exact absurd (mem_payloadsOn_relaySend _ hreg "tcpOpen" [] 5 4 rfl x hx).1 (by decide)
    · intro x hx
      simp [step, onConnection] at hx
  | socketData socket packet =>
    simp only [step, onSocketData]
    split
    · refine ⟨hreg, ?_, fun x hx => Or.inl hx⟩
      intro x hx
      right
      rw [(mem_payloadsOn_relaySend _ hreg "tcp" packet 4 4 rfl x hx).2]
      simp [chunks]
    · refine ⟨hreg, ?_, ?_⟩
      · intro x hx; simp [payloadsOn] at hx
      · intro x hx
        simp only [List.mem_append, List.mem_singleton] at hx
        rcases hx with hx | hx
        · exact Or.inl hx
        · right; rw [hx]; simp [chunks]
  | socketClose socket =>
    simp only [step, onSocketClose]
    split
    · have hno : ∀ x ∈ payloadsOn 4 (relaySend c.peer "tcpClose" []).1, False := fun x hx =>
        absurd (mem_payloadsOn_relaySend _ hreg "tcpClose" [] 3 4 rfl x hx).1 (by decide)
      split
      · exact ⟨hreg, fun x hx => (hno x hx).elim, fun x hx => Or.inl hx⟩
      · exact ⟨hreg, fun x hx => (hno x hx).elim, fun x hx => Or.inl hx⟩
    · exact ⟨hreg, fun x hx => by simp [payloadsOn] at hx, fun x hx => Or.inl hx⟩
  | message now buf =>
    have hreg' : Registered (c.peer.step (.message buf)).1 :=
      registered_step_peer c.peer hreg _ (by intro _ _ _ h; cases h)
    simp only [step]
    refine ⟨by rw [client_dispatch_peer]; exact hreg', ?_, ?_⟩
    · intro x hx
      rw [dispatch_payloads _ hreg' now _ (noSend_step_message c.peer buf)] at hx
      simp at hx
    · intro x hx
      exact Or.inl
        (dispatch_queue { c with peer := (c.peer.step (.message buf)).1 } now _ x hx)
  | flushTimeout =>
    simp only [step, flushTimeout]
    split
    · exact ⟨hreg, fun x hx => by simp [payloadsOn] at hx, fun x hx => Or.inl hx⟩
    · rename_i k hk
      obtain ⟨h1, h2, h3⟩ := flush_sound c.tcpQueue { c with flushTimers := k } hreg
      exact ⟨by rw [h1]; exact hreg, fun x hx => Or.inl (h2 x hx), fun x hx => Or.inl (h3 x hx)⟩
  | keepAliveInterval now =>
    simp only [step, keepAliveInterval]
    split
    · exact ⟨hreg, fun x hx => by simp [payloadsOn] at hx, fun x hx => Or.inl hx⟩
    · split
      · exact ⟨hreg, fun x hx => by simp [payloadsOn, payloadOn] at hx, fun x hx => Or.inl hx⟩
      · split
        · refine ⟨hreg, ?_, fun x hx => Or.inl hx⟩
          intro x hx
          rw [payloadsOn_append, payloadsOn_map_peer 4 _ (noSend_close c.peer)] at hx
          simp [payloadsOn, payloadOn] at hx
        · refine ⟨hreg, ?_, fun x hx => Or.inl hx⟩
          intro x hx
          exact absurd (mem_payloadsOn_relaySend _ hreg "keepAlive" [] 0 4 rfl x hx).1
            (by decide)
  | datachannelClosed =>
    have hreg' : Registered (c.peer.step .datachannelClosed).1 :=
      registered_step_peer c.peer hreg _ (by intro _ _ _ h; cases h)
    simp only [step]
    refine ⟨by rw [client_dispatch_peer]; exact hreg', ?_, ?_⟩
    · intro x hx
      rw [dispatch_payloads _ hreg' 0 _ (noSend_step_datachannelClosed c.peer)] at hx
      simp at hx
    · intro x hx
      exact Or.inl
        (dispatch_queue { c with peer := (c.peer.step .datachannelClosed).1 } 0 _ x hx)
  | ping =>
    simp only [step, ping]
    split
    · exact ⟨hreg, fun x hx => by simp [payloadsOn] at hx, fun x hx => Or.inl hx⟩
    · refine ⟨hreg, ?_, fun x hx => Or.inl hx⟩
      intro x hx
      exact absurd (mem_payloadsOn_relaySend _ hreg "ping" [] 1 4 rfl x hx).1 (by decide)
  | close =>
    simp only [step, close]
    cases c.nexusConnection with
    | none =>
      exact ⟨hreg, fun x hx => by simp [payloadsOn, payloadOn] at hx, fun x hx => Or.inl hx⟩
    | some isOpen =>
      refine ⟨hreg, ?_, fun x hx => Or.inl hx⟩
      intro x hx
      simp only at hx
      rw [payloadsOn_append, payloadsOn_append,
        payloadsOn_map_peer 4 _ (noSend_close c.peer)] at hx
      simp only [List.mem_append, List.append_nil] at hx
      rcases hx with hx | hx
      · split at hx <;> simp [payloadsOn, payloadOn] at hx
      · split at hx <;> simp [payloadsOn, payloadOn] at hx

/-- Over any run, the payloads written on channel 4 (`tcp`) were in the queue
at the start or are chunks delivered during the run. -/
theorem run_sound (es : List Event) (c : RelayTCPClient) (hreg : Registered c.peer) :
    ∀ x ∈ payloadsOn 4 (run c es).2, x ∈ c.tcpQueue ∨ x ∈ chunks es := by
  induction es generalizing c with
  | nil => intro x hx; simp [run, payloadsOn] at hx
  | cons e es ih =>
    intro x hx
    obtain ⟨h1, h2, h3⟩ := step_sound c hreg e
    simp only [run, payloadsOn_append, List.mem_append] at hx
    rw [chunks_cons, List.mem_append]
    rcases hx with hx | hx
    · rcases h2 x hx with h | h
      · exact Or.inl h
      · exact Or.inr (Or.inl h)
    · rcases ih _ h1 x hx with h | h
      · rcases h3 x h with h' | h'
        · exact Or.inl h'
        · exact Or.inr (Or.inl h')
      · exact Or.inr (Or.inr h)

theorem new_eq_sampleNew :
    RelayTCPClient.new { host_ID := some "ABCDEFGHIJ" } 0 = .ok sampleNew := by
  rfl

theorem sampleClient_registered : Registered sampleClient.peer := ⟨rfl, rfl⟩

/-! ### C4 -/

/-- C4. One local connection delivers chunk `[65]`, the peer's `tcpOpen`
arrives, the socket delivers chunk `[66]`, and then the 200 ms flush timer
fires: the chunks arrive in the order `[65]`, `[66]` but are sent on channel 4
(`tcp`) in the order `[66]`, `[65]`. -/
theorem chunk_overtakes_queue :
    chunks [.connection 1, .socketData 1 [65], .message 2000 [5], .socketData 1 [66],
        .flushTimeout] = [[65], [66]] ∧
      payloadsOn 4 (run sampleClient
        [.connection 1, .socketData 1 [65], .message 2000 [5], .socketData 1 [66],
          .flushTimeout]).2 = [[66], [65]] := by
  exact ⟨rfl, rfl⟩

/-! ### C5 -/

/-- C5. When a connection is accepted while another socket is tracked, the
handler first destroys the tracked socket, and afterwards the queue is empty,
`serverOpened` is false and the new socket is the tracked one; the handler
itself writes nothing on channel 4 (`tcp`), and whatever happens next, every
payload written on channel 4 is a chunk delivered by a socket after the
accept, so nothing that was queued before is ever sent. -/
theorem supersede_discards_queue (c : RelayTCPClient) (hreg : Registered c.peer)
    (first second : Socket) (htracked : c.tcpSocket = some first) :
    (∃ rest, (step c (.connection second)).2 = .socketDestroy first :: rest ∧
      ∀ s, RelayEffect.socketDestroy s ∉ rest) ∧
    (step c (.connection second)).1.tcpQueue = [] ∧
    (step c (.connection second)).1.serverOpened = false ∧
    (step c (.connection second)).1.tcpSocket = some second ∧
    payloadsOn 4 (step c (.connection second)).2 = [] ∧
    ∀ (es : List Event) (x : Buffer),
      x ∈ payloadsOn 4 (run (step c (.connection second)).1 es).2 → x ∈ chunks es := by
  refine ⟨?_, rfl, rfl, rfl, ?_, ?_⟩
  · refine ⟨(relaySend c.peer "tcpOpen" []).1, by simp [step, onConnection, htracked], ?_⟩
    intro s hs
    rw [relaySend_registered c.peer hreg "tcpOpen" [] 5 rfl] at hs
    split at hs
    · simp at hs
    · split at hs
      · simp at hs
      · split at hs <;> simp at hs
  · apply List.eq_nil_iff_forall_not_mem.2
    intro x hx
    rcases (step_sound c hreg (.connection second)).2.1 x hx with h | h
    · simp only [step, onConnection, payloadsOn_append, List.mem_append, htracked] at hx
      rcases hx with hx | hx
      · simp [payloadsOn, payloadOn] at hx
      · exact absurd (mem_payloadsOn_relaySend _ hreg "tcpOpen" [] 5 4 rfl x hx).1 (by decide)
    · simp [chunks] at h
  · intro es x hx
    rcases run_sound es _ (step_sound c hreg (.connection second)).1 x hx with h | h
    · simp [step, onConnection] at h
    · exact h

/-- C5 at a concrete input: socket 1 is tracked with chunk `[65]` queued when
socket 2 is accepted; the queue is then empty, and `[65]` is not written on
channel 4 when the peer's `tcpOpen` arrives, socket 2 delivers `[66]` and the
flush timer fires. -/
theorem supersede_discards_queue_witness :
    (run sampleClient [.connection 1, .socketData 1 [65]]).1.tcpSocket = some 1 ∧
      (run sampleClient [.connection 1, .socketData 1 [65]]).1.tcpQueue = [[65]] ∧
      (step (run sampleClient [.connection 1, .socketData 1 [65]]).1
        (.connection 2)).1.tcpQueue = [] ∧
      ([65] : Buffer) ∉ payloadsOn 4
        (run (step (run sampleClient [.connection 1, .socketData 1 [65]]).1
          (.connection 2)).1 [.message 2000 [5], .socketData 2 [66], .flushTimeout]).2 :=
  ⟨rfl, rfl,
   (supersede_discards_queue (run sampleClient [.connection 1, .socketData 1 [65]]).1
      ⟨rfl, rfl⟩ 1 2 rfl).2.1,
   fun hmem => absurd
    ((supersede_discards_queue (run sampleClient [.connection 1, .socketData 1 [65]]).1
      ⟨rfl, rfl⟩ 1 2 rfl).2.2.2.2.2 _ _ hmem) (by decide)⟩

end RelayTCPClient

/-! ## Liveness -/

theorem relaySend_closed (u : PeerUtil Handler) (hc : u.closed = true) (channel : String)
    (packet : Buffer) : relaySend u channel packet = ([], false) := by
  simp [relaySend, PeerUtil.send, hc]

theorem relaySend_keepAlive (u : PeerUtil Handler) (hl : Live u) :
    relaySend u "keepAlive" [] = ([.peer (.sendMessageBinary [0])], false) := by
  obtain ⟨hreg, hc, hdc⟩ := hl
  rw [relaySend_registered u hreg "keepAlive" [] 0 rfl]
  simp [hc, hdc]

theorem step_heartbeat (u : PeerUtil Handler) (hl : Live u) :
    u.step (.message [0]) = (u, [.callChannel .keepAlive []]) := by
  obtain ⟨hreg, hc, hdc⟩ := hl
  simp [PeerUtil.step, hdc, PeerUtil.onMessage, hreg.2, JsMap.get]

theorem quiet_map_peer (effs : List (Effect Handler)) (h : NoSend effs) :
    Quiet (effs.map .peer) := by
  intro p hp
  simp only [List.mem_map] at hp
  obtain ⟨e, he, heq⟩ := hp
  cases heq
  exact h p he

namespace RelayTCPClient

theorem client_keepAliveInterval_stale (c : RelayTCPClient) (now : Int)
    (htask : c.keepAliveTask = true) (hstale : now - c.lastKeepAlive > 50000) :
    (keepAliveInterval c now).1.peer.isClosed = true ∧
      (keepAliveInterval c now).1.keepAliveTask = false ∧
      Quiet (keepAliveInterval c now).2 := by
  have hle : c.lastKeepAlive ≤ now - 50000 := by omega
  by_cases hc : c.peer.isClosed = true
  · have heq : keepAliveInterval c now = ({ c with keepAliveTask := false }, [.clearInterval]) := by
      simp [keepAliveInterval, htask, hc]
    rw [heq]
    refine ⟨hc, rfl, ?_⟩
    intro p hp; simp at hp
  · have heq : keepAliveInterval c now =
        ({ c with peer := c.peer.close.1, keepAliveTask := false },
          c.peer.close.2.map .peer ++ [.clearInterval]) := by
      simp [keepAliveInterval, htask, hc, hle]
    rw [heq]
    refine ⟨(PeerUtil.close_settles c.peer).1, rfl, ?_⟩
    intro p hp
    simp only [List.mem_append, List.mem_singleton] at hp
    rcases hp with hp | hp
    · exact quiet_map_peer _ (noSend_close c.peer) p hp
    · cases hp

theorem client_keepAliveInterval_fresh (c : RelayTCPClient) (now : Int) (hl : Live c.peer)
    (htask : c.keepAliveTask = true) (hfresh : now - c.lastKeepAlive < 50000) :
    step c (.keepAliveInterval now) = (c, [.peer (.sendMessageBinary [0])]) := by
  have hle : ¬ c.lastKeepAlive ≤ now - 50000 := by omega
  have hc : c.peer.isClosed = false := hl.2.1
  simp [step, keepAliveInterval, htask, hc, hle, relaySend_keepAlive c.peer hl]

theorem client_heartbeat_step (c : RelayTCPClient) (now : Int) (hl : Live c.peer) :
    step c (.message now [0]) = ({ c with lastKeepAlive := now }, []) := by
  simp only [step, step_heartbeat c.peer hl, dispatch, onChannel]
  rfl

theorem client_run_timely (bs : List Beat) (c : RelayTCPClient) (hl : Live c.peer)
    (htask : c.keepAliveTask = true) (d : Int) (hd : d < 50000)
    (ht : Beat.timely d c.lastKeepAlive bs = true) :
    run c (bs.map Beat.client) =
      ({ c with lastKeepAlive := Beat.lastHeartbeat c.lastKeepAlive bs },
        List.replicate (Beat.ticks bs) (.peer (.sendMessageBinary [0]))) := by
  induction bs generalizing c with
  | nil => rfl
  | cons b bs ih =>
    cases b with
    | heartbeat now =>
      simp only [Beat.timely, Bool.and_eq_true, decide_eq_true_eq] at ht
      simp only [List.map_cons, Beat.client, run, client_heartbeat_step c now hl]
      rw [ih { c with lastKeepAlive := now } hl htask ht.2]
      rfl
    | tick now =>
      simp only [Beat.timely, Bool.and_eq_true, decide_eq_true_eq] at ht
      simp only [List.map_cons, Beat.client, run,
        client_keepAliveInterval_fresh c now hl htask (by omega)]
      rw [ih c hl htask ht.2]
      rfl

end RelayTCPClient

namespace RelayTCPHost

theorem onChannel_quiet (h : RelayTCPHost) (hc : h.peer.closed = true) (now : Int)
    (packet : Buffer) (f : Handler) : Quiet (onChannel h now packet f).2 := by
  intro p hp
  cases f <;> simp only [onChannel, onPeerClose, relaySend_closed h.peer hc] at hp <;>
    (try split at hp) <;> simp at hp

theorem dispatch_quiet (h : RelayTCPHost) (hc : h.peer.closed = true) (now : Int)
    (effs : List (Effect Handler)) (hno : NoSend effs) : Quiet (dispatch h now effs).2 := by
  induction effs generalizing h with
  | nil => intro p hp; simp [dispatch] at hp
  | cons e rest ih =>
    have hrest : NoSend rest := fun p hp => hno p (List.mem_cons_of_mem _ hp)
    have he : ∀ p, e ≠ .sendMessageBinary p := fun p hp => hno p (hp ▸ List.mem_cons_self _ _)
    intro p hp
    cases e with
    | callChannel f packet =>
      simp only [dispatch, List.mem_append] at hp
      rcases hp with hp | hp
      · exact onChannel_quiet h hc now packet f p hp
      · exact ih _ (by rw [host_onChannel_peer]; exact hc) hrest p hp
    | callListener f ev data =>
      simp only [dispatch, List.mem_append] at hp
      rcases hp with hp | hp
      · exact onChannel_quiet h hc now [] f p hp
      · exact ih _ (by rw [host_onChannel_peer]; exact hc) hrest p hp
    | sendMessageBinary q => exact absurd rfl (he q)
    | datachannelClose | peerClose | setRemoteDescription _ | addRemoteCandidate _
      | uncaught _ =>
      simp only [dispatch, List.mem_cons] at hp
      rcases hp with hp | hp
      · cases hp
      · exact ih h hc hrest p hp

theorem closePeer_quiet (h : RelayTCPHost) : Quiet (closePeer h).2 :=
  dispatch_quiet _ (PeerUtil.close_settles h.peer).1 0 _ (noSend_close h.peer)

theorem host_keepAliveInterval_stale (h : RelayTCPHost) (now last : Int)
    (htask : h.keepAliveTask = true) (hlast : h.lastKeepAlive = some last)
    (hstale : now - last > 50000) :
    (keepAliveInterval h now).1.peer.isClosed = true ∧
      (keepAliveInterval h now).1.keepAliveTask = false ∧
      Quiet (keepAliveInterval h now).2 := by
  have hle : stale h.lastKeepAlive now = true := by
    simp only [stale, hlast, decide_eq_true_eq]; omega
  by_cases hc : h.peer.isClosed = true
  · have heq : keepAliveInterval h now = ({ h with keepAliveTask := false }, [.clearInterval]) := by
      simp [keepAliveInterval, htask, hc]
    rw [heq]
    refine ⟨hc, rfl, ?_⟩
    intro p hp; simp at hp
  · have heq : keepAliveInterval h now =
        ({ (closePeer h).1 with keepAliveTask := false },
          (closePeer h).2 ++ [.clearInterval]) := by
      simp [keepAliveInterval, htask, hc, hle]
    rw [heq]
    refine ⟨closePeer_closed h, rfl, ?_⟩
    intro p hp
    simp only [List.mem_append, List.mem_singleton] at hp
    rcases hp with hp | hp
    · exact closePeer_quiet h p hp
    · cases hp

theorem host_keepAliveInterval_fresh (json : Message → Buffer) (h : RelayTCPHost) (now last : Int)
    (hl : Live h.peer) (htask : h.keepAliveTask = true) (hlast : h.lastKeepAlive = some last)
    (hfresh : now - last < 50000) :
    step json h (.keepAliveInterval now) = (h, [.peer (.sendMessageBinary [0])]) := by
  have hle : stale h.lastKeepAlive now = false := by
    simp only [stale, hlast, decide_eq_false_iff_not]; omega
  have hc : h.peer.isClosed = false := hl.2.1
  simp [step, keepAliveInterval, htask, hc, hle, relaySend_keepAlive h.peer hl]

theorem host_heartbeat_step (json : Message → Buffer) (h : RelayTCPHost) (now : Int)
    (hl : Live h.peer) :
    step json h (.peer now (.message [0])) = ({ h with lastKeepAlive := some now }, []) := by
  simp only [step, step_heartbeat h.peer hl, dispatch, onChannel]
  rfl

theorem host_run_timely (json : Message → Buffer) (bs : List Beat) (h : RelayTCPHost) (last : Int)
    (hl : Live h.peer) (htask : h.keepAliveTask = true) (hlast : h.lastKeepAlive = some last)
    (d : Int) (hd : d < 50000) (ht : Beat.timely d last bs = true) :
    run json h (bs.map Beat.host) =
      ({ h with lastKeepAlive := some (Beat.lastHeartbeat last bs) },
        List.replicate (Beat.ticks bs) (.peer (.sendMessageBinary [0]))) := by
  induction bs generalizing h last with
  | nil =>
    simp only [List.map_nil, run, Beat.lastHeartbeat, Beat.ticks, List.replicate, ← hlast]
  | cons b bs ih =>
    cases b with
    | heartbeat now =>
      simp only [Beat.timely, Bool.and_eq_true, decide_eq_true_eq] at ht
      simp only [List.map_cons, Beat.host, run, host_heartbeat_step json h now hl]
      rw [ih { h with lastKeepAlive := some now } now hl htask rfl ht.2]
      rfl
    | tick now =>
      simp only [Beat.timely, Bool.and_eq_true, decide_eq_true_eq] at ht
      simp only [List.map_cons, Beat.host, run,
        host_keepAliveInterval_fresh json h now last hl htask hlast (by omega)]
      rw [ih h last hl htask hlast ht.2]
      rfl

end RelayTCPHost

/-! ### C7 -/

/-- C7. Both relays set `lastKeepAlive` to the establishment time.  On the
client and on the host, a tick of the armed 3000 ms interval at a time more than
50000 ms after the last received `keepAlive` leaves the session closed and
writes nothing to the data channel.  If every heartbeat and every tick comes at
most 3000 ms after the heartbeat before it, then on a live session no tick
closes the session and the effects of the whole trace are exactly one
zero-length `keepAlive` message (the single byte 0) per tick. -/
theorem liveness_check (c : RelayTCPClient) (h : RelayTCPHost) (json : Message → Buffer) :
    (∀ now, (RelayTCPClient.onEstablished c now).lastKeepAlive = now) ∧
    (∀ now, h.stage = .awaitEstablished → h.peer.promisesEstablished.state = .resolved →
      (RelayTCPHost.step json h (.afterEstablished now)).1.lastKeepAlive = some now) ∧
    (∀ now, c.keepAliveTask = true → now - c.lastKeepAlive > 50000 →
      (RelayTCPClient.step c (.keepAliveInterval now)).1.peer.isClosed = true ∧
        Quiet (RelayTCPClient.step c (.keepAliveInterval now)).2) ∧
    (∀ now last, h.keepAliveTask = true → h.lastKeepAlive = some last → now - last > 50000 →
      (RelayTCPHost.step json h (.keepAliveInterval now)).1.peer.isClosed = true ∧
        Quiet (RelayTCPHost.step json h (.keepAliveInterval now)).2) ∧
    (∀ bs : List Beat, Live c.peer → c.keepAliveTask = true →
      Beat.timely 3000 c.lastKeepAlive bs = true →
      (RelayTCPClient.run c (bs.map Beat.client)).1.peer.isClosed = false ∧
        (RelayTCPClient.run c (bs.map Beat.client)).1.keepAliveTask = true ∧
        (RelayTCPClient.run c (bs.map Beat.client)).2 =
          List.replicate (Beat.ticks bs) (.peer (.sendMessageBinary [0]))) ∧
    (∀ (bs : List Beat) (last : Int), Live h.peer → h.keepAliveTask = true →
      h.lastKeepAlive = some last → Beat.timely 3000 last bs = true →
      (RelayTCPHost.run json h (bs.map Beat.host)).1.peer.isClosed = false ∧
        (RelayTCPHost.run json h (bs.map Beat.host)).1.keepAliveTask = true ∧
        (RelayTCPHost.run json h (bs.map Beat.host)).2 =
          List.replicate (Beat.ticks bs) (.peer (.sendMessageBinary [0]))) := by
  refine ⟨fun now => rfl, ?_, ?_, ?_, ?_, ?_⟩
  · intro now hst hres
    simp [RelayTCPHost.step, RelayTCPHost.afterEstablished, hst, hres]
  · intro now htask hstale
    obtain ⟨h1, _, h3⟩ := RelayTCPClient.client_keepAliveInterval_stale c now htask hstale
    exact ⟨h1, h3⟩
  · intro now last htask hlast hstale
    obtain ⟨h1, _, h3⟩ := RelayTCPHost.host_keepAliveInterval_stale h now last htask hlast hstale
    exact ⟨h1, h3⟩
  · intro bs hl htask ht
    rw [RelayTCPClient.client_run_timely bs c hl htask 3000 (by decide) ht]
    exact ⟨hl.2.1, htask, rfl⟩
  · intro bs last hl htask hlast ht
    rw [RelayTCPHost.host_run_timely json bs h last hl htask hlast 3000 (by decide) ht]
    exact ⟨hl.2.1, htask, rfl⟩

/-- C7 at concrete inputs: a tick 50001 ms after establishment closes the
session on both sides; in a trace with heartbeats every 3000 ms, three ticks
send three `keepAlive` messages. -/
theorem liveness_check_witness :
    (RelayTCPClient.step RelayTCPClient.sampleClient
        (.keepAliveInterval 51001)).1.peer.isClosed = true ∧
      (RelayTCPHost.step (fun _ => []) RelayTCPHost.sampleRunning
        (.keepAliveInterval 51001)).1.peer.isClosed = true ∧
      (RelayTCPClient.run RelayTCPClient.sampleClient
        ([.heartbeat 3000, .tick 4000, .heartbeat 6000, .tick 7000, .tick 9000].map
          Beat.client)).2 = List.replicate 3 (.peer (.sendMessageBinary [0])) ∧
      (RelayTCPHost.run (fun _ => []) RelayTCPHost.sampleRunning
        ([.heartbeat 3000, .tick 4000, .heartbeat 6000, .tick 7000, .tick 9000].map
          Beat.host)).2 = List.replicate 3 (.peer (.sendMessageBinary [0])) :=
  ⟨((liveness_check RelayTCPClient.sampleClient RelayTCPHost.sampleRunning
      (fun _ => [])).2.2.1 51001 rfl (by decide)).1,
   ((liveness_check RelayTCPClient.sampleClient RelayTCPHost.sampleRunning
      (fun _ => [])).2.2.2.1 51001 1000 rfl rfl (by decide)).1,
   ((liveness_check RelayTCPClient.sampleClient RelayTCPHost.sampleRunning
      (fun _ => [])).2.2.2.2.1 [.heartbeat 3000, .tick 4000, .heartbeat 6000, .tick 7000,
        .tick 9000] ⟨⟨rfl, rfl⟩, rfl, rfl⟩ rfl rfl).2.2,
   ((liveness_check RelayTCPClient.sampleClient RelayTCPHost.sampleRunning
      (fun _ => [])).2.2.2.2.2 [.heartbeat 3000, .tick 4000, .heartbeat 6000, .tick 7000,
        .tick 9000] 1000 ⟨⟨rfl, rfl⟩, rfl, rfl⟩ rfl rfl rfl).2.2⟩

/-! ### C10 -/

/-- C10, as stated, fails: on a fresh session the 180 s timer rejects the
established waiter with "Timed out" and the 20 s timer rejects the local-info
waiter, and in both cases `isClosed()` is still false afterwards. -/
theorem timeout_leaves_session_open :
    (PeerUtil.step (PeerUtil.new (H := Nat) none).1
        .establishedTimeout).1.promisesEstablished.state = .rejected "Timed out" ∧
      (PeerUtil.step (PeerUtil.new (H := Nat) none).1 .establishedTimeout).1.isClosed = false ∧
      (PeerUtil.step (PeerUtil.new (H := Nat) none).1
        .localSDPTimeout).1.promisesLocalSDP.state = .rejected "Timed out" ∧
      (PeerUtil.step (PeerUtil.new (H := Nat) none).1 .localSDPTimeout).1.isClosed = false := by
  refine ⟨rfl, rfl, rfl, rfl⟩

/-- C10, amended. A session is created with a 20000 ms timer on the local-info
promise and a 180000 ms timer on the established promise.  On every reachable
session, while the promise is pending its timer is still armed with that delay,
and when the timer fires the waiter is rejected with "Timed out", with no
effect and without changing `isClosed()`.  In `RelayTCPHost`, the callback that
awaits the promise then resumes in its `catch` block and closes the session:
`isClosed()` is true afterwards. -/
theorem timeout_rejects_waiter (u : PeerUtil Handler) (hr : PeerUtil.Reachable u) :
    (∀ remoteSDP : Option Message,
      (PeerUtil.new (H := Handler) remoteSDP).1.promisesLocalSDP =
          { state := .pending, timeout := some 20000 } ∧
        (PeerUtil.new (H := Handler) remoteSDP).1.promisesEstablished =
          { state := .pending, timeout := some 180000 }) ∧
    (u.promisesEstablished.state = .pending →
      u.promisesEstablished.timeout = some 180000 ∧
      (u.step .establishedTimeout).1.promisesEstablished.state = .rejected "Timed out" ∧
      (u.step .establishedTimeout).1.isClosed = u.isClosed ∧
      (u.step .establishedTimeout).2 = [] ∧
      ∀ (json : Message → Buffer) (h : RelayTCPHost) (now : Int),
        h.peer = u → h.stage = .awaitEstablished →
          (RelayTCPHost.run json h
            [.peer now .establishedTimeout, .afterEstablished now]).1.peer.isClosed = true) ∧
    (u.promisesLocalSDP.state = .pending →
      u.promisesLocalSDP.timeout = some 20000 ∧
      (u.step .localSDPTimeout).1.promisesLocalSDP.state = .rejected "Timed out" ∧
      (u.step .localSDPTimeout).1.isClosed = u.isClosed ∧
      (u.step .localSDPTimeout).2 = [] ∧
      ∀ (json : Message → Buffer) (h : RelayTCPHost) (now : Int),
        h.peer = u → h.stage = .awaitLocalSDP →
          (RelayTCPHost.run json h
            [.peer now .localSDPTimeout, .afterLocalSDP]).1.peer.isClosed = true) := by
  obtain ⟨hl, he⟩ := PeerUtil.armed_of_reachable hr
  refine ⟨fun remoteSDP => ⟨rfl, rfl⟩, ?_, ?_⟩
  · intro hp
    have ht := he.1 hp
    have hfire := PeerUtil.timeoutFunc_pending _ _ hp ht
    refine ⟨ht, ?_, rfl, rfl, ?_⟩
    · simp only [PeerUtil.step, hfire]
    · intro json h now hpeer hst
      subst hpeer
      simp only [RelayTCPHost.run, RelayTCPHost.step, PeerUtil.step, RelayTCPHost.dispatch]
      exact RelayTCPHost.afterEstablished_rejected _ now "Timed out" hst
        (by simp only [hfire])
  · intro hp
    have ht := hl.1 hp
    have hfire := PeerUtil.timeoutFunc_pending _ _ hp ht
    refine ⟨ht, ?_, rfl, rfl, ?_⟩
    · simp only [PeerUtil.step, hfire]
    · intro json h now hpeer hst
      subst hpeer
      simp only [RelayTCPHost.run, RelayTCPHost.step, PeerUtil.step, RelayTCPHost.dispatch]
      exact RelayTCPHost.afterLocalSDP_rejected json _ "Timed out" hst
        (by simp only [hfire])

/-- C10 at a concrete input: the host's responder session, whose 180 s timer
fires while the host awaits `establish()`. -/
theorem timeout_rejects_waiter_witness :
    (RelayTCPHost.sampleHost.peer.step .establishedTimeout).1.promisesEstablished.state =
        .rejected "Timed out" ∧
      (RelayTCPHost.run (fun _ => []) { RelayTCPHost.sampleHost with stage := .awaitEstablished }
        [.peer 180000 .establishedTimeout, .afterEstablished 180000]).1.peer.isClosed = true :=
  have hr : PeerUtil.Reachable RelayTCPHost.sampleHost.peer :=
    PeerUtil.reachable_run (PeerUtil.Reachable.init (some RelayTCPHost.sampleOffer)) _
  ⟨((timeout_rejects_waiter _ hr).2.1 rfl).2.1,
   ((timeout_rejects_waiter _ hr).2.1 rfl).2.2.2.2 (fun _ => [])
      { RelayTCPHost.sampleHost with stage := .awaitEstablished } 180000 rfl rfl⟩

/-! ### C11 -/

/-- C11. On an established host session the peer's `tcpOpen` starts a
connection attempt (socket 0); the attempt fails, so the socket reports an
error and closes before any listener was installed.  No `tcpOpen` was sent, but
the error is an unhandled `error` event, the variable `socket` still holds the
failed socket, and a second `tcpOpen` from the peer starts no new attempt. -/
theorem failed_connect_blocks_retry :
    (RelayTCPHost.run (fun _ => []) RelayTCPHost.sampleRunning
        [.peer 2000 (.message [5]), .socketError 0, .socketClose 0]).2 =
        [.createConnection 0 25565, .uncaught (.str "Unhandled 'error' event")] ∧
      (RelayTCPHost.run (fun _ => []) RelayTCPHost.sampleRunning
        [.peer 2000 (.message [5]), .socketError 0, .socketClose 0]).1.socket = some 0 ∧
      (RelayTCPHost.step (fun _ => [])
        (RelayTCPHost.run (fun _ => []) RelayTCPHost.sampleRunning
          [.peer 2000 (.message [5]), .socketError 0, .socketClose 0]).1
        (.peer 3000 (.message [5]))).2 = [] := by
  exact ⟨rfl, rfl, rfl⟩

/-- The sibling path: after a successful connection the socket's `close`
callback empties the slot, and the next `tcpOpen` starts a new attempt. -/
theorem closed_connection_allows_retry :
    (RelayTCPHost.run (fun _ => []) RelayTCPHost.sampleRunning
        [.peer 2000 (.message [5]), .socketConnect 0, .socketClose 0,
          .peer 3000 (.message [5])]).2 =
      [.createConnection 0 25565, .peer (.sendMessageBinary [5]),
        .peer (.sendMessageBinary [3]), .createConnection 1 25565] := by
  rfl

/-! ### C16 -/

/-- C16. A client accepts socket 1 and then socket 2, which supersedes it.
When the `close` event of socket 1 is processed, socket 2 is the tracked one;
the callback nevertheless sends `tcpClose` (the byte 3) to the peer and clears
the tracked socket, so a `tcp` payload that the peer sends next is written to
no socket, although without that event it is written to socket 2. -/
theorem stale_close_untracks_current :
    (RelayTCPClient.run RelayTCPClient.sampleClient
        [.connection 1, .connection 2]).1.tcpSocket = some 2 ∧
      (RelayTCPClient.step (RelayTCPClient.run RelayTCPClient.sampleClient
        [.connection 1, .connection 2]).1 (.socketClose 1)).2 =
        [.peer (.sendMessageBinary [3])] ∧
      (RelayTCPClient.step (RelayTCPClient.run RelayTCPClient.sampleClient
        [.connection 1, .connection 2]).1 (.socketClose 1)).1.tcpSocket = none ∧
      (RelayTCPClient.step (RelayTCPClient.run RelayTCPClient.sampleClient
        [.connection 1, .connection 2, .socketClose 1]).1 (.message 2000 [4, 7])).2 = [] ∧
      (RelayTCPClient.step (RelayTCPClient.run RelayTCPClient.sampleClient
        [.connection 1, .connection 2]).1 (.message 2000 [4, 7])).2 =
        [.socketWrite 2 [7]] := by
  exact ⟨rfl, rfl, rfl, rfl, rfl⟩

/-! ## The host's reply on the signaling connection -/

theorem relaySend_no_nexusSend (u : PeerUtil Handler) (channel : String) (packet b : Buffer) :
    RelayEffect.nexusSend b ∉ (relaySend u channel packet).1 := by
  intro hb
  simp only [relaySend] at hb
  split at hb <;> simp at hb

namespace RelayTCPHost

theorem onChannel_reply (h : RelayTCPHost) (now : Int) (packet : Buffer) (f : Handler) :
    (onChannel h now packet f).1.client_id = h.client_id ∧
      ∀ b, RelayEffect.nexusSend b ∉ (onChannel h now packet f).2 := by
  cases f with
  | ping => exact ⟨rfl, fun b => relaySend_no_nexusSend _ _ _ b⟩
  | keepAlive => exact ⟨rfl, fun b hb => by simp [onChannel] at hb⟩
  | pong =>
    refine ⟨?_, fun b hb => by simp [onChannel] at hb⟩
    simp only [onChannel]; split <;> rfl
  | tcpClose =>
    simp only [onChannel]
    split
    · exact ⟨rfl, fun b hb => by simp at hb⟩
    · exact ⟨rfl, fun b hb => by simp at hb⟩
  | tcp =>
    simp only [onChannel]
    split
    · exact ⟨rfl, fun b hb => by simp at hb⟩
    · exact ⟨rfl, fun b hb => by simp at hb⟩
  | tcpOpen =>
    simp only [onChannel]
    split
    · exact ⟨rfl, fun b hb => by simp at hb⟩
    · exact ⟨rfl, fun b hb => by simp at hb⟩
  | peerClose =>
    simp only [onChannel, onPeerClose]
    split
    · exact ⟨rfl, fun b hb => by simp at hb⟩
    · exact ⟨rfl, fun b hb => by simp at hb⟩

theorem dispatch_reply (h : RelayTCPHost) (now : Int) (effs : List (Effect Handler)) :
    (dispatch h now effs).1.client_id = h.client_id ∧
      ∀ b, RelayEffect.nexusSend b ∉ (dispatch h now effs).2 := by
  induction effs generalizing h with
  | nil => exact ⟨rfl, fun b hb => by simp [dispatch] at hb⟩
  | cons e rest ih =>
    cases e with
    | callChannel f packet =>
      simp only [dispatch]
      obtain ⟨h1, h2⟩ := onChannel_reply h now packet f
      obtain ⟨h3, h4⟩ := ih (onChannel h now packet f).1
      refine ⟨h3.trans h1, ?_⟩
      intro b hb
      rcases List.mem_append.1 hb with hb | hb
      · exact h2 b hb
      · exact h4 b hb
    | callListener f ev data =>
      simp only [dispatch]
      obtain ⟨h1, h2⟩ := onChannel_reply h now [] f
      obtain ⟨h3, h4⟩ := ih (onChannel h now [] f).1
      refine ⟨h3.trans h1, ?_⟩
      intro b hb
      rcases List.mem_append.1 hb with hb | hb
      · exact h2 b hb
      · exact h4 b hb
    | sendMessageBinary _ | datachannelClose | peerClose | setRemoteDescription _
      | addRemoteCandidate _ | uncaught _ =>
      simp only [dispatch]
      obtain ⟨h3, h4⟩ := ih h
      refine ⟨h3, ?_⟩
      intro b hb
      rcases List.mem_cons.1 hb with hb | hb
      · cases hb
      · exact h4 b hb

theorem closePeer_reply (h : RelayTCPHost) :
    (closePeer h).1.client_id = h.client_id ∧
      ∀ b, RelayEffect.nexusSend b ∉ (closePeer h).2 :=
  dispatch_reply { h with peer := h.peer.close.1 } 0 h.peer.close.2

/-- One event on the host keeps `client_id`, and the only message it can send
on the signaling connection is `client_id` followed by the encoded local
description. -/
theorem step_reply (json : Message → Buffer) (h : RelayTCPHost) (e : Event) :
    (step json h e).1.client_id = h.client_id ∧
      ∀ b, RelayEffect.nexusSend b ∈ (step json h e).2 →
        b = h.client_id ++ json h.peer.localSDP := by
  cases e with
  | peer now e =>
    obtain ⟨h1, h2⟩ := dispatch_reply { h with peer := (h.peer.step e).1 } now (h.peer.step e).2
    exact ⟨h1, fun b hb => absurd hb (h2 b)⟩
  | afterLocalSDP =>
    simp only [step, afterLocalSDP]
    split
    · refine ⟨rfl, ?_⟩
      intro b hb
      simpa using hb
    · obtain ⟨h1, h2⟩ := closePeer_reply { h with stage := .returned }
      exact ⟨h1, fun b hb => absurd hb (h2 b)⟩
    · exact ⟨rfl, fun b hb => by simp at hb⟩
  | afterEstablished now =>
    simp only [step, afterEstablished]
    split
    · exact ⟨rfl, fun b hb => by simp at hb⟩
    · obtain ⟨h1, h2⟩ := closePeer_reply { h with stage := .returned }
      exact ⟨h1, fun b hb => absurd hb (h2 b)⟩
    · exact ⟨rfl, fun b hb => by simp at hb⟩
  | keepAliveInterval now =>
    simp only [step, keepAliveInterval]
    split
    · exact ⟨rfl, fun b hb => by simp at hb⟩
    · split
      · exact ⟨rfl, fun b hb => by simp at hb⟩
      · split
        · obtain ⟨h1, h2⟩ := closePeer_reply h
          refine ⟨h1, ?_⟩
          intro b hb
          rcases List.mem_append.1 hb with hb | hb
          · exact absurd hb (h2 b)
          · simp at hb
        · exact ⟨rfl, fun b hb => absurd hb (relaySend_no_nexusSend _ _ _ b)⟩
  | socketConnect s =>
    simp only [step, onSocketConnect]
    split
    · exact ⟨rfl, fun b hb => absurd hb (relaySend_no_nexusSend _ _ _ b)⟩
    · split
      · exact ⟨rfl, fun b hb => absurd hb (relaySend_no_nexusSend _ _ _ b)⟩
      · refine ⟨rfl, ?_⟩
        intro b hb
        rcases List.mem_append.1 hb with hb | hb
        · exact absurd hb (relaySend_no_nexusSend _ _ _ b)
        · simp at hb
  | socketData s packet =>
    simp only [step]
    split
    · exact ⟨rfl, fun b hb => absurd hb (relaySend_no_nexusSend _ _ _ b)⟩
    · exact ⟨rfl, fun b hb => by simp at hb⟩
  | socketClose s =>
    simp only [step, onSocketClose]
    split
    · split
      · exact ⟨rfl, fun b hb => absurd hb (relaySend_no_nexusSend _ _ _ b)⟩
      · exact ⟨rfl, fun b hb => by simp at hb⟩
    · exact ⟨rfl, fun b hb => by simp at hb⟩
  | socketError s =>
    simp only [step, onSocketError]
    split
    · exact ⟨rfl, fun b hb => by simp at hb⟩
    · exact ⟨rfl, fun b hb => by simp at hb⟩

theorem run_reply (json : Message → Buffer) (es : List Event) (h : RelayTCPHost) :
    (run json h es).1.client_id = h.client_id ∧
      ∀ b, RelayEffect.nexusSend b ∈ (run json h es).2 →
        ∃ localSDP, b = h.client_id ++ json localSDP := by
  induction es generalizing h with
  | nil => exact ⟨rfl, fun b hb => by simp [run] at hb⟩
  | cons e es ih =>
    obtain ⟨h1, h2⟩ := step_reply json h e
    obtain ⟨h3, h4⟩ := ih (step json h e).1
    simp only [run]
    refine ⟨h3.trans h1, ?_⟩
    intro b hb
    rcases List.mem_append.1 hb with hb | hb
    · exact ⟨_, h2 b hb⟩
    · obtain ⟨m, hm⟩ := h4 b hb
      exact ⟨m, by rw [hm, h1]⟩

/-- The constructor part of a join request always succeeds, with the given
`client_id` and suspended at the first `await`. -/
theorem session_ok (tcpPort : Nat) (client_id : Buffer) (client_sdp : Message) :
    ∃ h effs, session tcpPort client_id client_sdp = .ok (h, effs) ∧
      h.client_id = client_id ∧ h.stage = .awaitLocalSDP ∧ h.tcpPort = tcpPort := by
  cases hs : client_sdp.sdp with
  | none => exact ⟨_, _, by simp only [session, hs]; rfl, rfl, rfl, rfl⟩
  | some v => exact ⟨_, _, by simp only [session, hs]; rfl, rfl, rfl, rfl⟩

end RelayTCPHost

/-! ### C13 -/

/-- C13, as stated, fails: for the request `[1, 65] ++ [123, 125]` (client id
`[65]` behind its length byte 1, then the description) the host's reply is
`[1, 65]` followed by its own encoded description: it starts with the length
byte, not with the client id. -/
theorem reply_keeps_length_byte :
    RelayTCPHost.onRequest (fun _ => .ok RelayTCPHost.sampleOffer) 25565 [1, 65, 123, 125] =
        .ok (RelayTCPHost.sampleHost,
          [.peer (.setRemoteDescription RelayTCPHost.sampleOffer.sdp)]) ∧
      (RelayTCPHost.run (fun _ => [123, 125]) RelayTCPHost.sampleHost
        [.peer 0 (.dataChannel ⟨true, false⟩), .afterLocalSDP]).2 =
        [.nexusSend [1, 65, 123, 125]] ∧
      ([1, 65, 123, 125] : Buffer) ≠ [65] ++ [123, 125] := by
  refine ⟨rfl, rfl, by decide⟩

/-- C13, amended. For a request `[n] ++ id ++ json` in which `id` has `n`
bytes, the host parses the bytes after the first `n + 1` as the client's
description and builds the session from it with `client_id = [n] ++ id`.  When
the local description is ready, the reply sent on the signaling connection is
exactly `[n] ++ id` (the length byte and the client id, as received) followed by
the encoded local description, and no other message is ever sent on that
connection for this request. -/
theorem reply_layout (parse : Buffer → Except Thrown Message) (json : Message → Buffer)
    (tcpPort : Nat) (n : Byte) (id jsonBytes : Buffer) (m : Message)
    (hid : id.length = n.val) (hparse : parse jsonBytes = .ok m) :
    RelayTCPHost.onRequest parse tcpPort (n :: id ++ jsonBytes) =
        RelayTCPHost.session tcpPort (n :: id) m ∧
    ∃ h effs, RelayTCPHost.onRequest parse tcpPort (n :: id ++ jsonBytes) = .ok (h, effs) ∧
      h.client_id = n :: id ∧ h.stage = .awaitLocalSDP ∧
      (∀ h' : RelayTCPHost, h'.client_id = h.client_id → h'.stage = .awaitLocalSDP →
        h'.peer.promisesLocalSDP.state = .resolved →
          (RelayTCPHost.step json h' .afterLocalSDP).2 =
            [.nexusSend (n :: id ++ json h'.peer.localSDP)]) ∧
      (∀ (es : List RelayTCPHost.Event) (b : Buffer),
        RelayEffect.nexusSend b ∈ (RelayTCPHost.run json h es).2 →
          ∃ localSDP, b = n :: id ++ json localSDP) := by
  have htake : (n :: id ++ jsonBytes).take (n.val + 1) = n :: id := by
    simp [List.take_succ_cons, ← hid]
  have hdrop : (n :: id ++ jsonBytes).drop (n.val + 1) = jsonBytes := by
    simp [← hid]
  have hreq : RelayTCPHost.onRequest parse tcpPort (n :: id ++ jsonBytes) =
      RelayTCPHost.session tcpPort (n :: id) m := by
    rw [List.cons_append] at htake hdrop ⊢
    simp only [RelayTCPHost.onRequest, hdrop, hparse, htake]
  refine ⟨hreq, ?_⟩
  obtain ⟨h, effs, hs, hcid, hstage, _⟩ := RelayTCPHost.session_ok tcpPort (n :: id) m
  refine ⟨h, effs, hreq.trans hs, hcid, hstage, ?_, ?_⟩
  · intro h' hcid' hst hres
    simp only [RelayTCPHost.step, RelayTCPHost.afterLocalSDP, hst, hres, hcid', hcid,
      List.cons_append]
  · intro es b hb
    obtain ⟨localSDP, hl⟩ := (RelayTCPHost.run_reply json es h).2 b hb
    exact ⟨localSDP, by rw [hl, hcid]⟩

/-- C13 at a concrete input: the request `[1, 65, 123, 125]`. -/
theorem reply_layout_witness :
    RelayTCPHost.onRequest (fun _ => .ok RelayTCPHost.sampleOffer) 25565
        ((1 : Byte) :: [65] ++ [123, 125]) =
      RelayTCPHost.session 25565 [1, 65] RelayTCPHost.sampleOffer :=
  (reply_layout (fun _ => .ok RelayTCPHost.sampleOffer) (fun _ => [123, 125]) 25565 1 [65]
    [123, 125] RelayTCPHost.sampleOffer rfl rfl).1

/-! ## The client's signaling request -/

theorem utf8EncodeChar_length (c : Char) :
    (c.toNat < 0x10000 → 1 ≤ (utf8EncodeChar c).length ∧ (utf8EncodeChar c).length ≤ 3) ∧
      (¬ c.toNat < 0x10000 → (utf8EncodeChar c).length = 4) ∧
      (c.toNat < 0x80 → (utf8EncodeChar c).length = 1) := by
  simp only [utf8EncodeChar]
  refine ⟨?_, ?_, ?_⟩
  · intro h
    split_ifs <;> simp
  · intro h
    split_ifs <;> first | omega | simp
  · intro h
    simp [h]

theorem utf8_length_bounds_list (l : List Char) :
    (l.map fun c => if c.toNat < 0x10000 then 1 else 2).sum ≤
        (l.map utf8EncodeChar).flatten.length ∧
      (l.map utf8EncodeChar).flatten.length ≤
        3 * (l.map fun c => if c.toNat < 0x10000 then 1 else 2).sum := by
  induction l with
  | nil => simp
  | cons c l ih =>
    simp only [List.map_cons, List.flatten_cons, List.length_append, List.sum_cons]
    obtain ⟨h1, h2, _⟩ := utf8EncodeChar_length c
    by_cases hc : c.toNat < 0x10000
    · obtain ⟨ha, hb⟩ := h1 hc
      simp only [hc, if_true]
      omega
    · have h4 := h2 hc
      simp only [hc, if_false]
      omega

theorem utf8_length_bounds (s : String) :
    jsLength s ≤ (utf8 s).length ∧ (utf8 s).length ≤ 3 * jsLength s :=
  utf8_length_bounds_list s.data

theorem utf8_length_ascii_list (l : List Char) (h : ∀ c ∈ l, c.toNat < 0x80) :
    (l.map utf8EncodeChar).flatten.length =
      (l.map fun c => if c.toNat < 0x10000 then 1 else 2).sum := by
  induction l with
  | nil => simp
  | cons c l ih =>
    have hc : c.toNat < 0x80 := h c (List.mem_cons_self _ _)
    have hc' : c.toNat < 0x10000 := by omega
    have hl := ih (fun d hd => h d (List.mem_cons_of_mem _ hd))
    simp only [List.map_cons, List.flatten_cons, List.length_append, List.sum_cons,
      (utf8EncodeChar_length c).2.2 hc, hc', if_true, hl]

theorem utf8_length_ascii (s : String) (h : ∀ c ∈ s.data, c.toNat < 0x80) :
    (utf8 s).length = jsLength s :=
  utf8_length_ascii_list s.data h

namespace RelayTCPClient

/-- What the constructor returns, by the checks on `host_ID`. -/
theorem new_eq (options : Options) (now : Int) :
    RelayTCPClient.new options now =
      if (match options.host_ID with
          | some s => if s = "" then "" else jsTrim s
          | none => "") = "" then .error (.str "Missing host ID")
      else if jsLength (match options.host_ID with
          | some s => if s = "" then "" else jsTrim s
          | none => "") ≠ 10 then .error (.str "Invalid host ID")
      else .ok { sampleNew with
        tcpPort := (match options.tcpPort with
          | some p => if p = 0 then 35585 else p
          | none => 35585)
        host_ID := (match options.host_ID with
          | some s => if s = "" then "" else jsTrim s
          | none => "")
        lastKeepAlive := now } := by
  unfold RelayTCPClient.new
  split_ifs with h1 h2
  · simp [h1]; rfl
  · simp [h1, h2]; rfl
  · simp [h1, h2]; rfl

theorem trimmed_eq (s : String) : (if s = "" then "" else jsTrim s) = jsTrim s := by
  split_ifs with h
  · subst h; rfl
  · rfl

/-- The request is the identifier's UTF-8 bytes behind their count. -/
theorem signalingRequest_eq (json : Message → Buffer) (host_ID : String) (m : Message)
    (hlen : (utf8 host_ID).length ≤ 255) :
    ∃ len : Byte, signalingRequest json host_ID m = len :: utf8 host_ID ++ json m ∧
      len.val = (utf8 host_ID).length := by
  refine ⟨toUint8 ((((0 : Byte) :: utf8 host_ID).length : Int) - 1), rfl, ?_⟩
  have h := PeerUtil.toUint8_of_range ((((0 : Byte) :: utf8 host_ID).length : Int) - 1)
    (by simp) (by simp only [List.length_cons]; omega)
  simp only [List.length_cons] at h ⊢
  omega

/-! ### C12 -/

/-- C12, as stated, fails: the identifier `éééééééééé` has length 10 and is
accepted by the constructor, but its UTF-8 encoding has 20 bytes, so the
request starts with the length byte 20 followed by 20 identifier bytes. -/
theorem request_identifier_not_ten_bytes :
    RelayTCPClient.new { host_ID := some "éééééééééé" } 0 =
        .ok { sampleNew with host_ID := "éééééééééé" } ∧
      signalingRequest (fun _ => [123, 125]) "éééééééééé" {} =
        20 :: utf8 "éééééééééé" ++ [123, 125] ∧
      (utf8 "éééééééééé").length = 20 := by
  refine ⟨rfl, rfl, rfl⟩

/-- C12, amended. The constructor throws when `host_ID` is missing and when
the trimmed identifier does not have length 10 (in UTF-16 code units, blank
identifiers included), and it succeeds otherwise, keeping the trimmed
identifier.  For an accepted identifier and every local description, the
request is one length byte, the UTF-8 bytes of the identifier and the encoded
description; the length byte is the number of identifier bytes, which lies
between 10 and 30 and is 10 when the identifier is ASCII.  That request is
what the client sends when the signaling connection opens. -/
theorem request_layout (json : Message → Buffer) (options : Options) (now : Int)
    (m : Message) :
    (options.host_ID = none →
      RelayTCPClient.new options now = .error (.str "Missing host ID")) ∧
    (∀ s, options.host_ID = some s → jsLength (jsTrim s) ≠ 10 →
      ∃ t, RelayTCPClient.new options now = .error t) ∧
    (∀ s, options.host_ID = some s → jsLength (jsTrim s) = 10 →
      ∃ c, RelayTCPClient.new options now = .ok c) ∧
    (∀ c, RelayTCPClient.new options now = .ok c →
      (∃ s, options.host_ID = some s ∧ c.host_ID = jsTrim s) ∧
      jsLength c.host_ID = 10 ∧
      ∃ len : Byte, signalingRequest json c.host_ID m = len :: utf8 c.host_ID ++ json m ∧
        len.val = (utf8 c.host_ID).length ∧ 10 ≤ len.val ∧ len.val ≤ 30 ∧
        ((∀ ch ∈ c.host_ID.data, ch.toNat < 0x80) → len.val = 10)) ∧
    (∀ c : RelayTCPClient, c.peer.promisesLocalSDP.state = .resolved →
      (onNexusOpen (afterLocalSDP json c).1).2 =
        [.nexusSend (signalingRequest json c.host_ID c.peer.localSDP)]) := by
  have hempty : jsLength "" ≠ 10 := by decide
  refine ⟨?_, ?_, ?_, ?_, ?_⟩
  · intro hnone
    rw [new_eq, hnone]
    simp
  · intro s hs hlen
    rw [new_eq, hs]
    simp only [trimmed_eq]
    by_cases h1 : jsTrim s = ""
    · exact ⟨.str "Missing host ID", by simp [h1]⟩
    · exact ⟨.str "Invalid host ID", by simp [h1, hlen]⟩
  · intro s hs hlen
    rw [new_eq, hs]
    simp only [trimmed_eq]
    have h1 : jsTrim s ≠ "" := by
      intro h; rw [h] at hlen; exact hempty hlen
    simp only [h1, hlen, if_false, ne_eq, not_true_eq_false]
    exact ⟨_, rfl⟩
  · intro c hc
    rw [new_eq] at hc
    cases hid : options.host_ID with
    | none => simp [hid] at hc
    | some s =>
      simp only [hid, trimmed_eq] at hc
      by_cases h1 : jsTrim s = ""
      · simp [h1] at hc
      · by_cases h2 : jsLength (jsTrim s) = 10
        · simp only [h1, h2, if_false, ne_eq, not_true_eq_false, Except.ok.injEq] at hc
          have hhost : c.host_ID = jsTrim s := by rw [← hc]
          have hb := utf8_length_bounds c.host_ID
          have hten : jsLength c.host_ID = 10 := by rw [hhost]; exact h2
          obtain ⟨len, hreq, hval⟩ := signalingRequest_eq json c.host_ID m (by omega)
          refine ⟨⟨s, rfl, hhost⟩, hten, len, hreq, hval, by omega, by omega, ?_⟩
          intro hascii
          rw [hval, utf8_length_ascii c.host_ID hascii, hten]
        · simp [h1, h2] at hc
  · intro c hres
    simp [afterLocalSDP, hres, onNexusOpen]

/-- C12 at a concrete input: the identifier `ABCDEFGHIJ` between blanks is
accepted, and its request starts with the length byte 10. -/
theorem request_layout_witness :
    (∃ c, RelayTCPClient.new { host_ID := some " ABCDEFGHIJ " } 0 = .ok c) ∧
      signalingRequest (fun _ => [123, 125]) "ABCDEFGHIJ" {} =
        [10, 65, 66, 67, 68, 69, 70, 71, 72, 73, 74, 123, 125] :=
  ⟨(request_layout (fun _ => [123, 125]) { host_ID := some " ABCDEFGHIJ " } 0 {}).2.2.1
      " ABCDEFGHIJ " rfl (by decide),
   rfl⟩

/-! ### C15 -/

theorem isPortInUse_ok (occupied : Nat → Bool) (port : Nat) (h1 : 1 ≤ port)
    (h2 : port ≤ 65535) : isPortInUse occupied port = .ok (occupied port) := by
  have h0 : port ≠ 0 := by omega
  have h3 : ¬ port > 65535 := by omega
  simp [isPortInUse, h0, h3]

/-- The loop from index `i` with `count` iterations left stops at the first
free port, or runs out and keeps the configured port. -/
theorem probe_spec (occupied : Nat → Bool) (b : Nat) (hb : 1 ≤ b) :
    ∀ count i, b + i + count ≤ 65536 →
      (∃ j, i ≤ j ∧ j < i + count ∧ occupied (b + j) = false ∧
          (∀ k, i ≤ k → k < j → occupied (b + k) = true) ∧
          probe occupied b i count = .ok (b + j, List.range' (b + i) (j - i + 1))) ∨
        ((∀ k, i ≤ k → k < i + count → occupied (b + k) = true) ∧
          probe occupied b i count = .ok (b, List.range' (b + i) count)) := by
  intro count
  induction count with
  | zero =>
    intro i _
    right
    exact ⟨fun k h1 h2 => by omega, rfl⟩
  | succ count ih =>
    intro i hmax
    have hport := isPortInUse_ok occupied (b + i) (by omega) (by omega)
    cases hocc : occupied (b + i) with
    | false =>
      left
      refine ⟨i, le_refl _, by omega, hocc, fun k h1 h2 => by omega, ?_⟩
      simp [probe, hport, hocc]
    | true =>
      rcases ih (i + 1) (by omega) with ⟨j, h1, h2, h3, h4, h5⟩ | ⟨h4, h5⟩
      · left
        refine ⟨j, by omega, by omega, h3, ?_, ?_⟩
        · intro k hk1 hk2
          by_cases hki : k = i
          · subst hki; exact hocc
          · exact h4 k (by omega) hk2
        · have hlen : j - i + 1 = (j - (i + 1) + 1) + 1 := by omega
          simp only [probe, hport, hocc, h5, hlen, List.range'_succ (b + i)]
          rfl
      · right
        refine ⟨?_, ?_⟩
        · intro k hk1 hk2
          by_cases hki : k = i
          · subst hki; exact hocc
          · exact h4 k (by omega) (by omega)
        · simp only [probe, hport, hocc, h5, List.range'_succ (b + i)]
          rfl

/-- C15. For a base port `b` with `1 ≤ b` and `b + 99 ≤ 65535` and any
occupancy of the ports, the probing loop ends without throwing, having probed
at most 100 ports: the ports `b, b + 1, ...` once each, in order; and the client
sets `#tcpPort` to the port `p` the loop ends on and listens on it. If one of
the ports `b .. b + 99` is free, `p` is the smallest free port of that range,
the ports probed are exactly `b .. p`, and `p` is `b` itself when `b` is free.
If all of them are occupied, exactly the 100 ports `b .. b + 99` are probed and
the client listens on `b`. -/
theorem probe_first_free (occupied : Nat → Bool) (b : Nat) (hb : 1 ≤ b)
    (hmax : b + 99 ≤ 65535) :
    ∃ p probed, probe occupied b 0 100 = .ok (p, probed) ∧
      probed.length ≤ 100 ∧ probed = List.range' b probed.length ∧
      (∀ c : RelayTCPClient, c.tcpPort = b →
        listen occupied c = ({ c with tcpPort := p }, [.tcpProxyListen p])) ∧
      ((∃ i, i < 100 ∧ occupied (b + i) = false) →
        occupied p = false ∧ b ≤ p ∧ p ≤ b + 99 ∧
        (∀ q, b ≤ q → q < p → occupied q = true) ∧
        (occupied b = false → p = b) ∧
        probed = List.range' b (p - b + 1)) ∧
      ((∀ i, i < 100 → occupied (b + i) = true) →
        p = b ∧ probed = List.range' b 100) := by
  rcases probe_spec occupied b hb 100 0 (by omega) with ⟨j, _, h2, h3, h4, h5⟩ | ⟨h4, h5⟩
  · have h5' : probe occupied b 0 100 = .ok (b + j, List.range' b (j + 1)) := by
      simpa using h5
    refine ⟨b + j, List.range' b (j + 1), h5', ?_, ?_, ?_, ?_, ?_⟩
    · simp only [List.length_range']; omega
    · simp only [List.length_range']
    · intro c hc
      subst hc
      simp only [listen, h5']
    · intro _
      refine ⟨h3, by omega, by omega, ?_, ?_, ?_⟩
      · intro q hq1 hq2
        have := h4 (q - b) (by omega) (by omega)
        rwa [Nat.add_sub_cancel' hq1] at this
      · intro hbfree
        by_contra hne
        have := h4 0 (le_refl _) (by omega)
        rw [Nat.add_zero, hbfree] at this
        cases this
      · simp
    · intro hall
      have := hall j (by omega)
      rw [h3] at this
      cases this
  · have h5' : probe occupied b 0 100 = .ok (b, List.range' b 100) := by
      simpa using h5
    refine ⟨b, List.range' b 100, h5', ?_, ?_, ?_, ?_, ?_⟩
    · simp only [List.length_range']; omega
    · simp only [List.length_range']
    · intro c hc
      subst hc
      simp only [listen, h5']
    · rintro ⟨i, hi, hocc⟩
      have := h4 i (by omega) (by omega)
      rw [hocc] at this
      cases this
    · intro _
      exact ⟨rfl, rfl⟩

/-- C15 at a concrete input: with the default port 35585 and the next one
occupied, ports 35585, 35586 and 35587 are probed and the client listens on
35587; with every port occupied, the 100 ports 35585 .. 35684 are probed and
the client listens on 35585. -/
theorem probe_first_free_witness :
    probe (fun port => decide (port < 35587)) 35585 0 100 =
        .ok (35587, [35585, 35586, 35587]) ∧
    probe (fun _ => true) 35585 0 100 = .ok (35585, List.range' 35585 100) ∧
    ∃ p probed, probe (fun port => decide (port < 35587)) 35585 0 100 = .ok (p, probed) ∧
      probed.length ≤ 100 ∧ probed = List.range' 35585 probed.length ∧
      (∀ c : RelayTCPClient, c.tcpPort = 35585 →
        listen (fun port => decide (port < 35587)) c =
          ({ c with tcpPort := p }, [.tcpProxyListen p])) ∧
      ((∃ i, i < 100 ∧ (fun port => decide (port < 35587)) (35585 + i) = false) →
        (fun port => decide (port < 35587)) p = false ∧ 35585 ≤ p ∧ p ≤ 35585 + 99 ∧
        (∀ q, 35585 ≤ q → q < p → (fun port => decide (port < 35587)) q = true) ∧
        ((fun port => decide (port < 35587)) 35585 = false → p = 35585) ∧
        probed = List.range' 35585 (p - 35585 + 1)) ∧
      ((∀ i, i < 100 → (fun port => decide (port < 35587)) (35585 + i) = true) →
        p = 35585 ∧ probed = List.range' 35585 100) :=
  ⟨rfl, rfl,
   probe_first_free (fun port => decide (port < 35587)) 35585 (by decide) (by decide)⟩

end RelayTCPClient

/-! ## The registry invariant -/

namespace PeerUtil

variable {H : Type}

theorem namesInjective_registerChannel {u u' : PeerUtil H} {name : String} {n : Option Int}
    {cb : Option H} (hok : RegistryOK u) (hu : NamesInjective u)
    (h : registerChannel u name n cb = .ok u') : NamesInjective u' := by
  cases n with
  | none =>
    obtain ⟨t, ht⟩ := registerChannel_none u name cb
    rw [ht] at h; cases h
  | some n =>
    obtain ⟨_, _, _, _, hnum, rfl⟩ := (registerChannel_ok_iff u u' name n cb).1 h
    intro a b k ha hb
    simp only at ha hb
    by_cases han : name = a
    · by_cases hbn : name = b
      · rw [← han, ← hbn]
      · subst han
        rw [JsMap.get_set_self] at ha
        rw [JsMap.get_set_ne _ _ _ _ hbn] at hb
        cases ha
        have := (hok b n hb).2.2
        rw [hnum] at this; cases this
    · by_cases hbn : name = b
      · subst hbn
        rw [JsMap.get_set_self] at hb
        rw [JsMap.get_set_ne _ _ _ _ han] at ha
        cases hb
        have := (hok a n ha).2.2
        rw [hnum] at this; cases this
      · rw [JsMap.get_set_ne _ _ _ _ han] at ha
        rw [JsMap.get_set_ne _ _ _ _ hbn] at hb
        exact hu a b k ha hb

theorem handlersSet_registerChannel {u u' : PeerUtil H} {name : String} {n : Option Int}
    {f : H} (hu : HandlersSet u) (h : registerChannel u name n (some f) = .ok u') :
    HandlersSet u' := by
  cases n with
  | none =>
    obtain ⟨t, ht⟩ := registerChannel_none u name (some f)
    rw [ht] at h; cases h
  | some n =>
    obtain ⟨_, _, _, _, _, rfl⟩ := (registerChannel_ok_iff u u' name n (some f)).1 h
    intro k cb hk
    simp only at hk
    by_cases hkn : n = k
    · subst hkn
      rw [JsMap.get_set_self] at hk
      cases hk
      simp
    · rw [JsMap.get_set_ne _ _ _ _ hkn] at hk
      exact hu k cb hk

/-- A `registerChannel` call as an event: the session it returns, or the same
session when it throws. -/
theorem step_registerChannel (u : PeerUtil H) (name : String) (n : Option Int)
    (cb : Option H) :
    (∃ u', registerChannel u name n cb = .ok u' ∧
        (step u (.registerChannel name n cb)).1 = u') ∨
      ((∃ t, registerChannel u name n cb = .error t) ∧
        (step u (.registerChannel name n cb)).1 = u) := by
  cases h : registerChannel u name n cb with
  | ok u' => exact Or.inl ⟨u', rfl, by simp [step, h]⟩
  | error t => exact Or.inr ⟨⟨t, rfl⟩, by simp [step, h]⟩

theorem registerAll_invariant (calls : List (String × Option Int × Option H))
    (u : PeerUtil H) (hok : RegistryOK u) (hinj : NamesInjective u) :
    RegistryOK (registerAll u calls) ∧ NamesInjective (registerAll u calls) := by
  induction calls generalizing u with
  | nil => exact ⟨hok, hinj⟩
  | cons call calls ih =>
    obtain ⟨name, n, cb⟩ := call
    simp only [registerAll]
    rcases step_registerChannel u name n cb with ⟨u', hreg, hstep⟩ | ⟨_, hstep⟩
    · rw [hstep]
      exact ih u' (registryOK_registerChannel hok hreg)
        (namesInjective_registerChannel hok hinj hreg)
    · rw [hstep]
      exact ih u hok hinj

theorem registerAll_handlers (calls : List (String × Option Int × Option H))
    (hcalls : ∀ call ∈ calls, call.2.2 ≠ none) (u : PeerUtil H) (hset : HandlersSet u) :
    HandlersSet (registerAll u calls) := by
  induction calls generalizing u with
  | nil => exact hset
  | cons call calls ih =>
    obtain ⟨name, n, cb⟩ := call
    have hrest : ∀ call ∈ calls, call.2.2 ≠ none :=
      fun c hc => hcalls c (List.mem_cons_of_mem _ hc)
    have hcb : cb ≠ none := hcalls (name, n, cb) (List.mem_cons_self _ _)
    simp only [registerAll]
    rcases step_registerChannel u name n cb with ⟨u', hreg, hstep⟩ | ⟨_, hstep⟩
    · rw [hstep]
      cases cb with
      | none => exact absurd rfl hcb
      | some f => exact ih hrest u' (handlersSet_registerChannel hset hreg)
    · rw [hstep]
      exact ih hrest u hset

/-- A successful registration keeps every entry that was there. -/
theorem registerChannel_keeps {u u' : PeerUtil H} {name : String} {n : Option Int}
    {cb : Option H} (h : registerChannel u name n cb = .ok u') :
    (∀ a k, JsMap.get u.channelNames a = some k → JsMap.get u'.channelNames a = some k) ∧
      (∀ k f, JsMap.get u.channelNumbers k = some f →
        JsMap.get u'.channelNumbers k = some f) := by
  cases n with
  | none =>
    obtain ⟨t, ht⟩ := registerChannel_none u name cb
    rw [ht] at h; cases h
  | some n =>
    obtain ⟨_, _, _, hname, hnum, rfl⟩ := (registerChannel_ok_iff u u' name n cb).1 h
    constructor
    · intro a k ha
      have hne : name ≠ a := by
        intro heq
        subst heq
        rw [JsMap.has_eq_isSome, ha] at hname
        cases hname
      simp only
      rw [JsMap.get_set_ne _ _ _ _ hne]
      exact ha
    · intro k f hk
      have hne : n ≠ k := by
        intro heq
        subst heq
        rw [JsMap.has_eq_isSome, hk] at hnum
        cases hnum
      simp only
      rw [JsMap.get_set_ne _ _ _ _ hne]
      exact hk

/-- Every registered name was registered by one of the calls made, under the
number that call passed, and the entry of that number is the callback that call
passed. -/
theorem registerAll_entries (calls : List (String × Option Int × Option H))
    (done : List (String × Option Int × Option H)) (u : PeerUtil H) (hok : RegistryOK u)
    (hent : ∀ a n, JsMap.get u.channelNames a = some n →
      ∃ cb, (a, some n, cb) ∈ done ∧ JsMap.get u.channelNumbers n = some cb) :
    ∀ a n, JsMap.get (registerAll u calls).channelNames a = some n →
      ∃ cb, (a, some n, cb) ∈ done ++ calls ∧
        JsMap.get (registerAll u calls).channelNumbers n = some cb := by
  induction calls generalizing u done with
  | nil => simpa [registerAll] using hent
  | cons call calls ih =>
    obtain ⟨name, n, cb⟩ := call
    simp only [registerAll]
    have happ : done ++ (name, n, cb) :: calls = (done ++ [(name, n, cb)]) ++ calls := by simp
    rw [happ]
    rcases step_registerChannel u name n cb with ⟨u', hreg, hstep⟩ | ⟨_, hstep⟩
    · rw [hstep]
      refine ih _ u' (registryOK_registerChannel hok hreg) ?_
      cases n with
      | none =>
        obtain ⟨t, ht⟩ := registerChannel_none u name cb
        rw [ht] at hreg; cases hreg
      | some m =>
        obtain ⟨_, _, _, _, hnum, rfl⟩ := (registerChannel_ok_iff u u' name m cb).1 hreg
        intro a k ha
        simp only at ha ⊢
        by_cases han : name = a
        · subst han
          rw [JsMap.get_set_self] at ha
          cases ha
          exact ⟨cb, by simp, JsMap.get_set_self _ _ _⟩
        · rw [JsMap.get_set_ne _ _ _ _ han] at ha
          obtain ⟨cb0, hmem, hget⟩ := hent a k ha
          have hne : m ≠ k := by
            intro heq
            subst heq
            rw [JsMap.has_eq_isSome, hget] at hnum
            cases hnum
          refine ⟨cb0, by simp [hmem], ?_⟩
          rw [JsMap.get_set_ne _ _ _ _ hne]
          exact hget
    · rw [hstep]
      refine ih _ u hok ?_
      intro a k ha
      obtain ⟨cb0, hmem, hget⟩ := hent a k ha
      exact ⟨cb0, by simp [hmem], hget⟩

/-! ### C14 -/

/-- C14, counterexample. On a new session `registerChannel("x", 5)`, a call
that passes no callback, succeeds: afterwards the name `x` is registered under
number 5, which lies in 0..255 and has an entry in the number table, but that
entry is `undefined`, not a handler, and a message arriving on channel 5 calls
nothing. -/
theorem registered_without_handler :
    registerChannel (new (H := Nat) none).1 "x" (some 5) none =
        .ok (registerAll (new (H := Nat) none).1 [("x", some 5, none)]) ∧
      JsMap.get (registerAll (new (H := Nat) none).1 [("x", some 5, none)]).channelNames "x" =
        some 5 ∧
      JsMap.has (registerAll (new (H := Nat) none).1 [("x", some 5, none)]).channelNumbers 5 =
        true ∧
      JsMap.get (registerAll (new (H := Nat) none).1 [("x", some 5, none)]).channelNumbers 5 =
        some none ∧
      (¬ ∃ f, JsMap.get
        (registerAll (new (H := Nat) none).1 [("x", some 5, none)]).channelNumbers 5 =
          some (some f)) ∧
      onMessage (registerAll (new (H := Nat) none).1 [("x", some 5, none)]) [5, 1, 2] = [] :=
  ⟨rfl, rfl, rfl, rfl,
   (by
     rintro ⟨f, h⟩
     have h' : (some none : Option (Option Nat)) = some (some f) := h
     cases h'),
   rfl⟩

/-- C14, amended. After any sequence of `registerChannel` calls on a new
session, successful or throwing: no two registered names have the same number;
every registered name's number lies in 0..255 and has an entry in the number
table; that entry is the callback passed by a call of the sequence that gave
this name and this number, so it is a handler when every call passed one (and
is `undefined` when the registering call passed none); a further call keeps the
number of every registered name and the entry of every registered number; and
a call that throws leaves the session unchanged. -/
theorem registry_invariant (remoteSDP : Option Message)
    (calls : List (String × Option Int × Option H)) :
    (∀ a b n, JsMap.get (registerAll (new remoteSDP).1 calls).channelNames a = some n →
      JsMap.get (registerAll (new remoteSDP).1 calls).channelNames b = some n → a = b) ∧
    (∀ a n, JsMap.get (registerAll (new remoteSDP).1 calls).channelNames a = some n →
      0 ≤ n ∧ n ≤ 255 ∧
        JsMap.has (registerAll (new remoteSDP).1 calls).channelNumbers n = true) ∧
    (∀ a n, JsMap.get (registerAll (new remoteSDP).1 calls).channelNames a = some n →
      ∃ cb, (a, some n, cb) ∈ calls ∧
        JsMap.get (registerAll (new remoteSDP).1 calls).channelNumbers n = some cb) ∧
    ((∀ call ∈ calls, call.2.2 ≠ none) →
      ∀ a n, JsMap.get (registerAll (new remoteSDP).1 calls).channelNames a = some n →
        ∃ f, JsMap.get (registerAll (new remoteSDP).1 calls).channelNumbers n =
          some (some f)) ∧
    (∀ (name : String) (number : Option Int) (cb : Option H),
      (∀ a k, JsMap.get (registerAll (new remoteSDP).1 calls).channelNames a = some k →
        JsMap.get (step (registerAll (new remoteSDP).1 calls)
          (.registerChannel name number cb)).1.channelNames a = some k) ∧
      (∀ k f, JsMap.get (registerAll (new remoteSDP).1 calls).channelNumbers k = some f →
        JsMap.get (step (registerAll (new remoteSDP).1 calls)
          (.registerChannel name number cb)).1.channelNumbers k = some f) ∧
      (∀ t, registerChannel (registerAll (new remoteSDP).1 calls) name number cb = .error t →
        step (registerAll (new remoteSDP).1 calls) (.registerChannel name number cb) =
          (registerAll (new remoteSDP).1 calls, [.uncaught t]))) := by
  have hinj0 : NamesInjective (new (H := H) remoteSDP).1 := by
    intro a b n ha
    simp [new, JsMap.get] at ha
  have hset0 : HandlersSet (new (H := H) remoteSDP).1 := by
    intro n cb hn
    simp [new, JsMap.get] at hn
  have hent0 : ∀ a n, JsMap.get (new (H := H) remoteSDP).1.channelNames a = some n →
      ∃ cb, (a, some n, cb) ∈ ([] : List (String × Option Int × Option H)) ∧
        JsMap.get (new (H := H) remoteSDP).1.channelNumbers n = some cb := by
    intro a n ha
    simp [new, JsMap.get] at ha
  obtain ⟨hok, hinj⟩ := registerAll_invariant calls _ (registryOK_new remoteSDP) hinj0
  have hent := registerAll_entries calls [] _ (registryOK_new remoteSDP) hent0
  rw [List.nil_append] at hent
  refine ⟨hinj, hok, hent, ?_, ?_⟩
  · intro hcalls a n ha
    have hset := registerAll_handlers calls hcalls _ hset0
    have hhas := (hok a n ha).2.2
    rw [JsMap.has_eq_isSome] at hhas
    cases hg : JsMap.get (registerAll (new remoteSDP).1 calls).channelNumbers n with
    | none => rw [hg] at hhas; cases hhas
    | some cb =>
      cases cb with
      | none => exact absurd rfl (hset n none hg)
      | some f => exact ⟨f, rfl⟩
  · intro name number cb
    rcases step_registerChannel (registerAll (new remoteSDP).1 calls) name number cb with
      ⟨u', hreg, hstep⟩ | ⟨_, hstep⟩
    · obtain ⟨h1, h2⟩ := registerChannel_keeps hreg
      refine ⟨?_, ?_, ?_⟩
      · rw [hstep]; exact h1
      · rw [hstep]; exact h2
      · intro t ht
        rw [hreg] at ht; cases ht
    · refine ⟨?_, ?_, ?_⟩
      · rw [hstep]; exact fun a k h => h
      · rw [hstep]; exact fun k f h => h
      · intro t ht
        simp [step, ht]

/-- C14, amended, at a concrete input: of five calls, two succeed; the calls
that reuse a name or a number and the call with number 300 leave the registry as
it was, and the entry of number 2 is the callback of the call that registered
`c`. -/
theorem registry_invariant_witness :
    (registerAll (new (H := Nat) none).1
        [("a", some 1, some 10), ("a", some 2, some 11), ("b", some 1, some 12),
          ("b", some 300, some 13), ("c", some 2, some 14)]).channelNames =
        [("a", 1), ("c", 2)] ∧
      JsMap.get (registerAll (new (H := Nat) none).1
        [("a", some 1, some 10), ("a", some 2, some 11), ("b", some 1, some 12),
          ("b", some 300, some 13), ("c", some 2, some 14)]).channelNumbers 2 =
        some (some 14) ∧
      ∃ f, JsMap.get (registerAll (new (H := Nat) none).1
        [("a", some 1, some 10), ("a", some 2, some 11), ("b", some 1, some 12),
          ("b", some 300, some 13), ("c", some 2, some 14)]).channelNumbers 2 =
        some (some f) :=
  ⟨rfl, rfl,
   (registry_invariant (H := Nat) none
      [("a", some 1, some 10), ("a", some 2, some 11), ("b", some 1, some 12),
        ("b", some 300, some 13), ("c", some 2, some 14)]).2.2.2.1
      (by decide) "c" 2 rfl⟩

end PeerUtil

end FriendJoin
